import Mathlib

/-!
Verification of the sapi_scheduler core against its specification.

The development shallowly embeds the three Python modules that make up the
core of the repository:

* `src/instance.py`   — the CP-SAT model builder (`Instance`, `SolutionBuilder`),
* `src/data_input.py` — the normalizer (`get_problem_info`),
* `sapi.py`           — the grouping transformation (`make_group`).

Python lists become Lean `List`s, numpy vectors become `List Int`, numpy
`(n_days, n_tasks)` matrices become `List (List Int)` (row-major, as the
shape setters in `instance.py` enforce), `(i, j, k)` index triples become
`Nat × Nat × Nat`, and raised exceptions become `Except` errors.  The
external CP-SAT solver is not modelled; instead the constraint families
posted by `Instance.solve` are rendered as decidable predicates over a
candidate assignment, and claims about emitted solutions are conditioned on
the assignment satisfying the posted model, exactly as the claims state.
-/

deriving instance DecidableEq for Except

/-- Index triples `(i, j, k)` — unit, day, task — as used by `force`,
`reject` and the decision-variable dictionary in the source. -/
abbrev Triple := Nat × Nat × Nat

/-- Python values used as unit identifiers: the normalizer produces plain
(string) keys, and `make_group` produces Python lists of previously existing
identifiers (`instance_ids.append(new_ids)` in `sapi.py`), which may nest.
Lists are encoded as cons cells so that equality is the structural equality
Python's `==`/`list.index` uses on such values. -/
inductive PyId where
  | str (s : String)
  | nil
  | cons (hd tl : PyId)
deriving Repr, DecidableEq

/-- Encoding of a Python list of identifier values as a single `PyId`. -/
def pyList (l : List PyId) : PyId := l.foldr .cons .nil

theorem pyList_inj {l l' : List PyId} (h : pyList l = pyList l') : l = l' := by
  induction l generalizing l' with
  | nil => cases l' with
    | nil => rfl
    | cons b t => simp [pyList] at h
  | cons a t ih => cases l' with
    | nil => simp [pyList] at h
    | cons b t' =>
      simp only [pyList, List.foldr, PyId.cons.injEq] at h
      rw [h.1, ih h.2]

/-- Errors raised by the embedded Python code.  `valueError` is Python's
`ValueError` (raised by `list.index` on a missing element; the spec's error
taxonomy calls this situation `UnknownUnit` when it arises in a group
operation), `keyError` is Python's `KeyError` (dict lookup on a missing
key), and `filesMismatch` is `ConsistencyBetweenFilesError` from
`src/data_input.py` (the spec's `InconsistentInputs`). -/
inductive PyErr where
  | valueError
  | keyError
  | filesMismatch
deriving Repr, DecidableEq

/-- Model of Python's `list.index(a)`: the index of the first occurrence,
or `ValueError` when the element is absent. -/
def indexE [DecidableEq α] (l : List α) (a : α) : Except PyErr Nat :=
  match l.findIdx? (fun x => x = a) with
  | some i => .ok i
  | none => .error .valueError

/-- Model of Python's `list(set(x))`: duplicates removed.  CPython's set
iteration order is implementation defined; we fix the deterministic order
that keeps the first occurrence of each element.  Claims about the result
are stated at the level of membership and duplicate-freedom, which do not
depend on this choice. -/
def pySetList [DecidableEq α] (l : List α) : List α := go [] l
where
  go (seen : List α) : List α → List α
    | [] => []
    | a :: t => if a ∈ seen then go seen t else a :: go (a :: seen) t

theorem pySetList.go_sub [DecidableEq α] (seen : List α) (l : List α) :
    ∀ a ∈ pySetList.go seen l, a ∈ l := by
  induction l generalizing seen with
  | nil => intro a ha; simp [pySetList.go] at ha
  | cons b t ih =>
    intro a ha
    simp only [pySetList.go] at ha
    by_cases hb : b ∈ seen
    · simp [hb] at ha
      exact List.mem_cons_of_mem _ (ih seen a ha)
    · simp [hb] at ha
      rcases ha with h | h
      · simp [h]
      · exact List.mem_cons_of_mem _ (ih _ a h)

theorem pySetList.mem_go [DecidableEq α] (l : List α) :
    ∀ (seen : List α) (a : α), a ∈ l → a ∉ seen → a ∈ pySetList.go seen l := by
  induction l with
  | nil => intro seen a hl _; simp at hl
  | cons b t ih =>
    intro seen a hl hs
    simp only [pySetList.go]
    by_cases hb : b ∈ seen
    · simp only [hb, if_true]
      rcases List.mem_cons.mp hl with h | h
      · exact absurd (h ▸ hb) hs
      · exact ih seen a h hs
    · simp only [hb, if_false]
      rcases List.mem_cons.mp hl with h | h
      · exact List.mem_cons.mpr (Or.inl h)
      · by_cases hab : a = b
        · exact List.mem_cons.mpr (Or.inl hab)
        · exact List.mem_cons.mpr (Or.inr (ih (b :: seen) a h (by simp [hab, hs])))

theorem mem_pySetList [DecidableEq α] (l : List α) (a : α) :
    a ∈ pySetList l ↔ a ∈ l :=
  ⟨fun h => pySetList.go_sub [] l a h, fun h => pySetList.mem_go l [] a h (by simp)⟩

theorem pySetList.go_nodup [DecidableEq α] (seen : List α) (l : List α) :
    (pySetList.go seen l).Nodup ∧ ∀ a ∈ pySetList.go seen l, a ∉ seen := by
  induction l generalizing seen with
  | nil => simp [pySetList.go]
  | cons b t ih =>
    simp only [pySetList.go]
    by_cases hb : b ∈ seen
    · simpa [hb] using ih seen
    · simp only [hb, if_false]
      obtain ⟨hnd, hdis⟩ := ih (b :: seen)
      refine ⟨List.nodup_cons.mpr ⟨?_, hnd⟩, ?_⟩
      · intro hmem
        exact hdis b hmem (by simp)
      · intro a ha
        rcases List.mem_cons.mp ha with h | h
        · exact h ▸ hb
        · intro hseen
          exact hdis a h (List.mem_cons_of_mem _ hseen)

theorem pySetList_nodup [DecidableEq α] (l : List α) : (pySetList l).Nodup :=
  (pySetList.go_nodup [] l).1

theorem pySetList_eq_self [DecidableEq α] {l : List α} (h : l.Nodup) :
    pySetList l = l := by
  suffices hgen : ∀ seen : List α, (∀ a ∈ l, a ∉ seen) → pySetList.go seen l = l from
    hgen [] (by simp)
  induction l with
  | nil => intro seen _; rfl
  | cons b t ih =>
    intro seen hdis
    obtain ⟨hb, hnd⟩ := List.nodup_cons.mp h
    simp only [pySetList.go, hdis b (by simp), if_false]
    have := ih hnd (b :: seen) ?_
    · rw [this]
    · intro a ha
      simp only [List.mem_cons]
      push_neg
      exact ⟨fun hab => hb (hab ▸ ha), hdis a (List.mem_cons_of_mem _ ha)⟩

/-!
Embedding of `src/instance.py`.

The `Instance` class keeps the dimensions, the per-unit vectors, the
per-(day, task) demand matrices and the `force`/`reject` triples; the shape
setters guarantee that `people_per_task`, `women_per_task` and
`parents_per_task` are `n_days × n_tasks` numpy arrays and that the vectors
have length `n_p_units`, which we record as `SapiInstance.wellShaped` /
`SapiInstance.wellSized` hypotheses where needed.  `Instance.solve` first
runs `check_consistency` and only then posts the seven constraint families
on the boolean variables `shifts[(i, j, k)]` and hands the model to the
solver; a candidate assignment is a function `Nat → Nat → Nat → Bool` and
`satisfiesPosted` states that it satisfies every posted constraint.
-/

/-- State of an `Instance` object from `src/instance.py` at the time
`solve` is called (the solver-facing fields only; `max_time`/`max_sols`
govern the external search and play no role in the posted constraints). -/
structure SapiInstance where
  n_p_units : Nat
  n_days : Nat
  n_tasks : Nat
  n_people : List Int
  n_women : List Int
  n_parents : List Int
  people_per_task : List (List Int)
  women_per_task : List (List Int)
  parents_per_task : List (List Int)
  force : List Triple
  reject : List Triple
deriving Repr, DecidableEq

/-- Read entry `(j, k)` of a row-major matrix, as `M[j, k]` on a
well-shaped numpy array. -/
def matGet (m : List (List Int)) (j k : Nat) : Int := (m.getD j []).getD k 0

/-- Read entry `i` of a vector, as `v[i]` on a well-sized numpy array. -/
def vecGet (v : List Int) (i : Nat) : Int := v.getD i 0

/-- Value of the boolean decision variable `shifts[(i, j, k)]` inside one of
the linear expressions of the model. -/
def boolInt (b : Bool) : Int := if b then 1 else 0

/-- A candidate value assignment to the decision variables
`shifts[(i, j, k)]`. -/
abbrev Assignment := Nat → Nat → Nat → Bool

/-- The linear expression `sum(shifts[(i, j, k)] * w[i] for i in
range(n_p_units))` used by constraint families 1–3. -/
def unitSum (u : Nat) (w : List Int) (S : Assignment) (j k : Nat) : Int :=
  ((List.range u).map (fun i => boolInt (S i j k) * vecGet w i)).sum

/-- Constraint family 1 (demand of people per task), posted with `==`. -/
def constraint1 (inst : SapiInstance) (S : Assignment) : Prop :=
  ∀ j < inst.n_days, ∀ k < inst.n_tasks,
    unitSum inst.n_p_units inst.n_people S j k = matGet inst.people_per_task j k

/-- Constraint family 2 (min number of parents), posted with `>=`. -/
def constraint2 (inst : SapiInstance) (S : Assignment) : Prop :=
  ∀ j < inst.n_days, ∀ k < inst.n_tasks,
    matGet inst.parents_per_task j k ≤ unitSum inst.n_p_units inst.n_parents S j k

/-- Constraint family 3 (min number of women), posted with `>=`. -/
def constraint3 (inst : SapiInstance) (S : Assignment) : Prop :=
  ∀ j < inst.n_days, ∀ k < inst.n_tasks,
    matGet inst.women_per_task j k ≤ unitSum inst.n_p_units inst.n_women S j k

/-- Constraint family 4 (one task per day per unit). -/
def constraint4 (inst : SapiInstance) (S : Assignment) : Prop :=
  ∀ i < inst.n_p_units, ∀ j < inst.n_days,
    ((List.range inst.n_tasks).map (fun k => boolInt (S i j k))).sum ≤ 1

/-- Constraint family 5 (forced variables pinned to 1). -/
def constraint5 (inst : SapiInstance) (S : Assignment) : Prop :=
  ∀ t ∈ inst.force, S t.1 t.2.1 t.2.2 = true

/-- Constraint family 6 (rejected variables pinned to 0). -/
def constraint6 (inst : SapiInstance) (S : Assignment) : Prop :=
  ∀ t ∈ inst.reject, S t.1 t.2.1 t.2.2 = false

/-- The window expression `sum(shifts[(i, j, k)] for j in range(j_0, j_0 +
min_gap) for k in range(n_tasks))` of constraint family 7. -/
def windowSum (nTasks min_gap : Nat) (S : Assignment) (i j0 : Nat) : Int :=
  ((List.range min_gap).flatMap
    (fun d => (List.range nTasks).map (fun k => boolInt (S i (j0 + d) k)))).sum

/-- Constraint family 7 (spacing): the source loops
`for j_0 in range(self.n_days - min_gap)`, so the admitted window starts are
exactly `j_0 < n_days - min_gap`. -/
def constraint7 (inst : SapiInstance) (min_gap : Nat) (S : Assignment) : Prop :=
  ∀ i < inst.n_p_units, ∀ j0 < inst.n_days - min_gap,
    windowSum inst.n_tasks min_gap S i j0 ≤ 1

/-- An assignment satisfies the model posted by `Instance.solve(relax,
min_gap)`: each family is posted exactly when its label is not in `relax`
(`if n not in relax:` in the source). -/
def satisfiesPosted (inst : SapiInstance) (relax : List Nat) (min_gap : Nat)
    (S : Assignment) : Prop :=
  (1 ∉ relax → constraint1 inst S) ∧
  (2 ∉ relax → constraint2 inst S) ∧
  (3 ∉ relax → constraint3 inst S) ∧
  (4 ∉ relax → constraint4 inst S) ∧
  (5 ∉ relax → constraint5 inst S) ∧
  (6 ∉ relax → constraint6 inst S) ∧
  (7 ∉ relax → constraint7 inst min_gap S)

instance (inst : SapiInstance) (relax : List Nat) (min_gap : Nat)
    (S : Assignment) : Decidable (satisfiesPosted inst relax min_gap S) := by
  unfold satisfiesPosted constraint1 constraint2 constraint3 constraint4
    constraint5 constraint6 constraint7
  infer_instance

/-- The capture performed by `SolutionBuilder.on_solution_callback`: a
`n_p_units × n_days × n_tasks` tensor whose `(i, j, k)` entry is the value
the solver reports for `shifts[(i, j, k)]`. -/
def captureSolution (S : Assignment) (u d t : Nat) : List (List (List Int)) :=
  (List.range u).map (fun i =>
    (List.range d).map (fun j =>
      (List.range t).map (fun k => boolInt (S i j k))))

/-- Entry `(i, j, k)` of a captured solution tensor. -/
def tenGet (sol : List (List (List Int))) (i j k : Nat) : Int :=
  ((sol.getD i []).getD j []).getD k 0

theorem captureSolution_get (S : Assignment) (u d t : Nat)
    (i j k : Nat) (hi : i < u) (hj : j < d) (hk : k < t) :
    tenGet (captureSolution S u d t) i j k = boolInt (S i j k) := by
  simp [tenGet, captureSolution, List.getD, List.getElem?_map, hi, hj, hk,
    List.getElem?_range]

/-- Result of `np.argwhere(A > B)` on two row-major matrices: the row-major
list of positions `(j, k)` where `A[j, k] > B[j, k]`. -/
def argwhereGt (a b : List (List Int)) : List (Nat × Nat) :=
  (List.range a.length).flatMap (fun j =>
    (List.range ((a.getD j []).length)).filterMap (fun k =>
      if matGet b j k < matGet a j k then some (j, k) else none))

/-- Error raised by `Instance.check_consistency`: a `ConsistencyError`
carrying (through its message) the offending day/task pairs of the matrix
comparison that failed.  The women comparison is performed first. -/
inductive ConsErr where
  | women (pairs : List (Nat × Nat))
  | parents (pairs : List (Nat × Nat))
deriving Repr, DecidableEq

/-- The day/task pairs listed in a `ConsistencyError` message. -/
def ConsErr.pairs : ConsErr → List (Nat × Nat)
  | .women l => l
  | .parents l => l

/-- Embedding of `Instance.check_consistency`: raise on the
women-vs-people comparison first, then on the parents-vs-people one. -/
def SapiInstance.check_consistency (inst : SapiInstance) : Except ConsErr Unit :=
  let gender_inconsist := argwhereGt inst.women_per_task inst.people_per_task
  if 0 < gender_inconsist.length then .error (.women gender_inconsist)
  else
    let parent_inconsist := argwhereGt inst.parents_per_task inst.people_per_task
    if 0 < parent_inconsist.length then .error (.parents parent_inconsist)
    else .ok ()

/-- The model handed to the solver by `Instance.solve` when the consistency
pre-check passes: the instance data together with the `relax` set and
`min_gap`, which determine the posted constraints (`satisfiesPosted`). -/
structure BuiltModel where
  inst : SapiInstance
  relax : List Nat
  min_gap : Nat
deriving Repr, DecidableEq

/-- Embedding of `Instance.solve(relax, min_gap)` up to the solver hand-off:
`check_consistency` runs before any constraint is posted and before
`SearchForAllSolutions` is invoked; on success the posted model is handed to
the solver, which only emits assignments with `satisfiesPosted`. -/
def SapiInstance.solve (inst : SapiInstance) (relax : List Nat) (min_gap : Nat) :
    Except ConsErr BuiltModel :=
  match inst.check_consistency with
  | .error e => .error e
  | .ok _ => .ok ⟨inst, relax, min_gap⟩

/-- The weighted sum `Σ_i w[i]·sol[i, j, k]` over a captured solution
tensor, as computed by the property the spec states for produced
solutions. -/
def capturedUnitSum (sol : List (List (List Int))) (u : Nat) (w : List Int)
    (j k : Nat) : Int :=
  ((List.range u).map (fun i => tenGet sol i j k * vecGet w i)).sum

theorem capturedUnitSum_capture (S : Assignment) (u d t : Nat) (w : List Int)
    (j k : Nat) (hj : j < d) (hk : k < t) :
    capturedUnitSum (captureSolution S u d t) u w j k = unitSum u w S j k := by
  unfold capturedUnitSum unitSum
  congr 1
  apply List.map_congr_left
  intro i hi
  rw [captureSolution_get S u d t i j k (List.mem_range.mp hi) hj hk]

/-- C1: for every solution captured into the solution list by
`Instance.solve` with constraint 1 not relaxed — i.e. any assignment
satisfying the posted model — the weighted sum `Σ_i n_people[i]·S[i,j,k]`
over the captured tensor equals `people_per_task[j,k]` exactly (the
constraint is posted with equality, so oversupply is disallowed), for every
in-range day and task. -/
theorem c1_people_quota_exact (inst : SapiInstance) (relax : List Nat)
    (min_gap : Nat) (S : Assignment) (h1 : 1 ∉ relax)
    (hS : satisfiesPosted inst relax min_gap S) :
    ∀ j < inst.n_days, ∀ k < inst.n_tasks,
      capturedUnitSum (captureSolution S inst.n_p_units inst.n_days inst.n_tasks)
          inst.n_p_units inst.n_people j k
        = matGet inst.people_per_task j k := by
  intro j hj k hk
  rw [capturedUnitSum_capture S _ _ _ _ j k hj hk]
  exact hS.1 h1 j hj k hk

/-- Concrete two-unit, one-day, one-task instance used to instantiate the
hypothesised theorems about posted models. -/
def witInst : SapiInstance :=
  ⟨2, 1, 1, [1, 1], [0, 0], [0, 0], [[1]], [[0]], [[0]], [], []⟩

/-- Concrete assignment putting only unit 0 on duty. -/
def witSol : Assignment := fun i _ _ => i == 0

theorem c1_people_quota_exact_witness :
    (1 ∉ ([] : List Nat)) ∧ satisfiesPosted witInst [] 1 witSol ∧
    (∀ j < witInst.n_days, ∀ k < witInst.n_tasks,
      capturedUnitSum
          (captureSolution witSol witInst.n_p_units witInst.n_days witInst.n_tasks)
          witInst.n_p_units witInst.n_people j k
        = matGet witInst.people_per_task j k) :=
  ⟨by decide, by decide,
    c1_people_quota_exact witInst [] 1 witSol (by decide) (by decide)⟩

/-- The window property exactly as claim C2 states it: every start day `j0`
with `j0 + min_gap ≤ n_days` — including `j0 = n_days - min_gap` — has at
most one assignment in its window. -/
def allWindowsBounded (inst : SapiInstance) (min_gap : Nat) (S : Assignment) : Prop :=
  ∀ i < inst.n_p_units, ∀ j0, j0 + min_gap ≤ inst.n_days →
    windowSum inst.n_tasks min_gap S i j0 ≤ 1

/-- Single-unit instance over two days whose demand forces an assignment on
both days; with `min_gap = 2` the source posts no spacing window at all
(`range(2 - 2)` is empty), so the all-days assignment satisfies the posted
model yet violates the window starting at day `n_days - min_gap = 0`. -/
def gapInst : SapiInstance :=
  ⟨1, 2, 1, [1], [0], [0], [[1], [1]], [[0], [0]], [[0], [0]], [], []⟩

/-- The assignment putting the only unit on duty every day. -/
def gapSol : Assignment := fun _ _ _ => true

/-- C2 counterexample: an assignment satisfying everything
`Instance.solve` posts (constraint 7 not relaxed, `min_gap = 2`) while the
window starting at day `n_days - min_gap` holds two assignments; the code
loops `for j_0 in range(self.n_days - min_gap)` and never posts that last
window. -/
theorem c2_counterexample :
    satisfiesPosted gapInst [] 2 gapSol ∧ ¬ allWindowsBounded gapInst 2 gapSol := by
  constructor
  · decide
  · intro h
    have h2 := h 0 (by decide) 0 (by decide)
    revert h2
    decide

/-- C2 amended: for every solution produced with constraint 7 not relaxed,
every unit `i`, and every window start `j0` with `j0 < n_days - min_gap`
(strictly — the window starting at `n_days - min_gap` is not posted), the
window of `min_gap` consecutive days holds at most one assignment. -/
theorem c2_spacing_posted_windows (inst : SapiInstance) (relax : List Nat)
    (min_gap : Nat) (S : Assignment) (h7 : 7 ∉ relax)
    (hS : satisfiesPosted inst relax min_gap S) :
    ∀ i < inst.n_p_units, ∀ j0 < inst.n_days - min_gap,
      windowSum inst.n_tasks min_gap S i j0 ≤ 1 :=
  hS.2.2.2.2.2.2 h7

theorem c2_spacing_posted_windows_witness :
    (7 ∉ ([] : List Nat)) ∧ satisfiesPosted witInst [] 1 witSol ∧
    (∀ i < witInst.n_p_units, ∀ j0 < witInst.n_days - 1,
      windowSum witInst.n_tasks 1 witSol i j0 ≤ 1) :=
  ⟨by decide, by decide,
    c2_spacing_posted_windows witInst [] 1 witSol (by decide) (by decide)⟩

theorem mem_argwhereGt (a b : List (List Int)) (j k : Nat) :
    (j, k) ∈ argwhereGt a b ↔
      j < a.length ∧ k < (a.getD j []).length ∧ matGet b j k < matGet a j k := by
  simp only [argwhereGt, List.mem_flatMap, List.mem_range, List.mem_filterMap,
    Option.ite_none_right_eq_some, Option.some.injEq, Prod.mk.injEq]
  constructor
  · rintro ⟨j', hj', k', hk', hlt, hje, hke⟩
    subst hje; subst hke
    exact ⟨hj', hk', hlt⟩
  · rintro ⟨hj, hk, hlt⟩
    exact ⟨j, hj, k, hk, hlt, rfl, rfl⟩

/-- Shape of a `(d, t)` numpy matrix, as enforced by the `@property`
setters of `Instance` (`Qjk.shape != (self._n_days, self._n_tasks)` raises
`ShapeError`). -/
def matShape (m : List (List Int)) (d t : Nat) : Prop :=
  m.length = d ∧ ∀ r ∈ m, r.length = t

instance (m : List (List Int)) (d t : Nat) : Decidable (matShape m d t) := by
  unfold matShape; infer_instance

/-- An `Instance` whose three demand matrices passed the shape setters. -/
def SapiInstance.wellShaped (inst : SapiInstance) : Prop :=
  matShape inst.people_per_task inst.n_days inst.n_tasks ∧
  matShape inst.women_per_task inst.n_days inst.n_tasks ∧
  matShape inst.parents_per_task inst.n_days inst.n_tasks

instance (inst : SapiInstance) : Decidable inst.wellShaped := by
  unfold SapiInstance.wellShaped; infer_instance

theorem matShape_row {m : List (List Int)} {d t : Nat} (h : matShape m d t)
    {j : Nat} (hj : j < d) : (m.getD j []).length = t := by
  have hjl : j < m.length := h.1 ▸ hj
  rw [List.getD_eq_getElem m [] hjl]
  exact h.2 _ (List.getElem_mem hjl)

theorem mem_argwhereGt_shaped {a : List (List Int)} {d t : Nat}
    (hA : matShape a d t) (b : List (List Int)) (j k : Nat) :
    (j, k) ∈ argwhereGt a b ↔
      j < d ∧ k < t ∧ matGet b j k < matGet a j k := by
  rw [mem_argwhereGt, hA.1]
  constructor
  · rintro ⟨hj, hk, hlt⟩
    exact ⟨hj, (matShape_row hA hj) ▸ hk, hlt⟩
  · rintro ⟨hj, hk, hlt⟩
    exact ⟨hj, (matShape_row hA hj).symm ▸ hk, hlt⟩

theorem argwhereGt_eq_nil_iff {a : List (List Int)} {d t : Nat}
    (hA : matShape a d t) (b : List (List Int)) :
    argwhereGt a b = [] ↔
      ∀ j < d, ∀ k < t, matGet a j k ≤ matGet b j k := by
  rw [List.eq_nil_iff_forall_not_mem]
  constructor
  · intro h j hj k hk
    have := h (j, k)
    rw [mem_argwhereGt_shaped hA] at this
    push_neg at this
    exact this hj hk
  · intro h x
    rw [show x = (x.1, x.2) from rfl, mem_argwhereGt_shaped hA]
    rintro ⟨hj, hk, hlt⟩
    exact absurd (h x.1 hj x.2 hk) (not_le.mpr hlt)

/-- C6 counterexample: on an instance where both the women matrix (at
`(0,0)`) and the parents matrix (at `(0,1)`) exceed the people matrix,
`Instance.solve` raises the women `ConsistencyError` listing only `(0,0)`;
the offending parents pair `(0,1)` is not listed, so the error does not
list every offending pair. -/
def c6Inst : SapiInstance :=
  ⟨0, 1, 2, [], [], [], [[0, 0]], [[1, 0]], [[0, 1]], [], []⟩

theorem c6_counterexample :
    c6Inst.solve [] 4 = .error (.women [(0, 0)]) ∧
    matGet c6Inst.people_per_task 0 1 < matGet c6Inst.parents_per_task 0 1 ∧
    ((0, 1) : Nat × Nat) ∉ (ConsErr.women [(0, 0)]).pairs := by
  refine ⟨?_, by decide, by decide⟩
  decide

/-- C6 amended: `Instance.solve` raises `ConsistencyError` before the
solver is invoked iff some `(j,k)` has `women_per_task > people_per_task`
or `parents_per_task > people_per_task`; the women comparison is checked
first, and the raised error lists exactly the offending pairs of its own
family — when both families have violations only the women pairs are
listed. -/
theorem c6_consistency_check (inst : SapiInstance) (relax : List Nat)
    (min_gap : Nat) (hws : inst.wellShaped) :
    (inst.solve relax min_gap = .ok ⟨inst, relax, min_gap⟩ ↔
      ∀ j < inst.n_days, ∀ k < inst.n_tasks,
        matGet inst.women_per_task j k ≤ matGet inst.people_per_task j k ∧
        matGet inst.parents_per_task j k ≤ matGet inst.people_per_task j k) ∧
    (∀ l, inst.solve relax min_gap = .error (.women l) →
      ∀ j k : Nat, ((j, k) ∈ l ↔ j < inst.n_days ∧ k < inst.n_tasks ∧
        matGet inst.people_per_task j k < matGet inst.women_per_task j k)) ∧
    (∀ l, inst.solve relax min_gap = .error (.parents l) →
      (∀ j < inst.n_days, ∀ k < inst.n_tasks,
        matGet inst.women_per_task j k ≤ matGet inst.people_per_task j k) ∧
      ∀ j k : Nat, ((j, k) ∈ l ↔ j < inst.n_days ∧ k < inst.n_tasks ∧
        matGet inst.people_per_task j k < matGet inst.parents_per_task j k)) := by
  obtain ⟨hsP, hsW, hsE⟩ := hws
  unfold SapiInstance.solve SapiInstance.check_consistency
  by_cases hg : 0 < (argwhereGt inst.women_per_task inst.people_per_task).length
  · simp only [hg, if_true]
    have hne : argwhereGt inst.women_per_task inst.people_per_task ≠ [] := by
      intro h0; rw [h0] at hg; simp at hg
    refine ⟨?_, ?_, ?_⟩
    · constructor
      · intro h; cases h
      · intro hall
        exact absurd ((argwhereGt_eq_nil_iff hsW _).mpr
          (fun j hj k hk => (hall j hj k hk).1)) hne
    · intro l hl j k
      have : l = argwhereGt inst.women_per_task inst.people_per_task := by
        cases hl; rfl
      rw [this, mem_argwhereGt_shaped hsW]
    · intro l hl; cases hl
  · simp only [hg, if_false]
    have hgnil : argwhereGt inst.women_per_task inst.people_per_task = [] := by
      rcases List.eq_nil_or_concat (argwhereGt inst.women_per_task inst.people_per_task)
        with h | ⟨l0, a, h⟩
      · exact h
      · exact absurd (by rw [h]; simp) hg
    have hwle := (argwhereGt_eq_nil_iff hsW inst.people_per_task).mp hgnil
    by_cases hp : 0 < (argwhereGt inst.parents_per_task inst.people_per_task).length
    · simp only [hp, if_true]
      have hne : argwhereGt inst.parents_per_task inst.people_per_task ≠ [] := by
        intro h0; rw [h0] at hp; simp at hp
      refine ⟨?_, ?_, ?_⟩
      · constructor
        · intro h; cases h
        · intro hall
          exact absurd ((argwhereGt_eq_nil_iff hsE _).mpr
            (fun j hj k hk => (hall j hj k hk).2)) hne
      · intro l hl; cases hl
      · intro l hl
        have : l = argwhereGt inst.parents_per_task inst.people_per_task := by
          cases hl; rfl
        refine ⟨hwle, ?_⟩
        intro j k
        rw [this, mem_argwhereGt_shaped hsE]
    · simp only [hp, if_false]
      have hpnil : argwhereGt inst.parents_per_task inst.people_per_task = [] := by
        rcases List.eq_nil_or_concat (argwhereGt inst.parents_per_task inst.people_per_task)
          with h | ⟨l0, a, h⟩
        · exact h
        · exact absurd (by rw [h]; simp) hp
      have hele := (argwhereGt_eq_nil_iff hsE inst.people_per_task).mp hpnil
      refine ⟨?_, ?_, ?_⟩
      · constructor
        · intro _ j hj k hk
          exact ⟨hwle j hj k hk, hele j hj k hk⟩
        · intro _; trivial
      · intro l hl; cases hl
      · intro l hl; cases hl

theorem c6_consistency_check_witness :
    witInst.wellShaped ∧
    (witInst.solve [] 1 = .ok ⟨witInst, [], 1⟩ ↔
      ∀ j < witInst.n_days, ∀ k < witInst.n_tasks,
        matGet witInst.women_per_task j k ≤ matGet witInst.people_per_task j k ∧
        matGet witInst.parents_per_task j k ≤ matGet witInst.people_per_task j k) :=
  ⟨by decide, (c6_consistency_check witInst [] 1 (by decide)).1⟩

/-!
Embedding of `src/data_input.py`.

`get_problem_info` first reads the three spreadsheets through
`read_ficha_servo`, `read_demanda` and `read_solution_sheet`; those readers
perform I/O and are out of the core, so their outputs are the inputs of the
embedded function: the roster task list and people dict (an association
list in insertion order with distinct keys, as Python dicts guarantee), the
demand task list and the three demand dicts (finite maps), and the day list
and availability triples.  Everything from the `tasks != tasks_check` check
onward is translated line by line.
-/

/-- A row of the roster stream (`Person` namedtuple in the source). -/
structure Person where
  name : String
  gender : String
  exp_level : Int
  task_answ : List (String × String)
deriving Repr, DecidableEq

/-- The `ProblemInfo` namedtuple of `src/data_input.py`. -/
structure ProblemInfo where
  n_p_units : Nat
  n_days : Nat
  n_tasks : Nat
  tasks : List String
  ids : List PyId
  names : List String
  days : List String
  people_per_task : List (List Int)
  women_per_task : List (List Int)
  parents_per_task : List (List Int)
  n_people : List Int
  n_women : List Int
  n_parents : List Int
  reject : List Triple
  force : List Triple
deriving Repr, DecidableEq

/-- Python dict lookup `d[key]`: `KeyError` when the key is absent. -/
def dictGetE (f : String → Option Int) (s : String) : Except PyErr Int :=
  match f s with
  | some v => .ok v
  | none => .error .keyError

/-- Lookup in the `id_to_i` dict built by enumerating the people dict:
maps the `m`-th key to `m`; `KeyError` when the key is absent. -/
def idToIE (keys : List String) (s : String) : Except PyErr Nat :=
  match keys.findIdx? (fun x => x = s) with
  | some i => .ok i
  | none => .error .keyError

/-- Error-propagating map, as a Python list comprehension that may raise. -/
def mapExcept (f : α → Except PyErr β) : List α → Except PyErr (List β)
  | [] => .ok []
  | a :: t =>
    match f a with
    | .error e => .error e
    | .ok b =>
      match mapExcept f t with
      | .error e => .error e
      | .ok bs => .ok (b :: bs)

/-- The inner loop `for task, answ in person.task_answ.items()` of
`get_problem_info`: look the task up in the task list (always, as the
source does) and append one rejection per day when the answer is
`'Não Aceito'`. -/
def taskRejects (tasks : List String) (nDays i : Nat) :
    List (String × String) → Except PyErr (List Triple)
  | [] => .ok []
  | ta :: rest =>
    match indexE tasks ta.1 with
    | .error e => .error e
    | .ok k =>
      match taskRejects tasks nDays i rest with
      | .error e => .error e
      | .ok r =>
        .ok ((if ta.2 = "Não Aceito"
              then (List.range nDays).map (fun j => (i, j, k)) else []) ++ r)

/-- The loop `for i, (id_, person) in enumerate(people.items())` of
`get_problem_info`: builds `names`, `n_people` (all ones), `n_women`
(gender `'F'`), `n_parents` (`exp_level >= exp_threshold`) and the roster
part of `reject`, in insertion order. -/
def peopleLoop (tasks : List String) (nDays : Nat) (exp_threshold : Int) :
    Nat → List (String × Person) →
    Except PyErr (List String × List Int × List Int × List Int × List Triple)
  | _, [] => .ok ([], [], [], [], [])
  | i, (_, pr) :: rest =>
    match taskRejects tasks nDays i pr.task_answ with
    | .error e => .error e
    | .ok rj =>
      match peopleLoop tasks nDays exp_threshold (i + 1) rest with
      | .error e => .error e
      | .ok (ns, np, nw, npar, rjs) =>
        .ok (pr.name :: ns, 1 :: np,
             (if pr.gender = "F" then 1 else 0) :: nw,
             (if exp_threshold ≤ pr.exp_level then 1 else 0) :: npar,
             rj ++ rjs)

/-- The loop `for id_, day, info in sheet_info` of `get_problem_info`:
a known task name forces that `(unit, day, task)`, the literal `'indisp'`
rejects the unit on every task of that day, anything else is ignored. -/
def sheetLoop (tasks days : List String) (keys : List String) (nTasks : Nat) :
    List (String × String × String) → List Triple × List Triple →
    Except PyErr (List Triple × List Triple)
  | [], acc => .ok acc
  | (id_, day, info) :: rest, (rej, fr) =>
    match idToIE keys id_ with
    | .error e => .error e
    | .ok i =>
      match indexE days day with
      | .error e => .error e
      | .ok j =>
        if info ∈ tasks then
          match indexE tasks info with
          | .error e => .error e
          | .ok k => sheetLoop tasks days keys nTasks rest (rej, fr ++ [(i, j, k)])
        else if info = "indisp" then
          sheetLoop tasks days keys nTasks rest
            (rej ++ (List.range nTasks).map (fun k => (i, j, k)), fr)
        else sheetLoop tasks days keys nTasks rest (rej, fr)

/-- Remainder of `get_problem_info` after the `tasks != tasks_check` check
passed: demand extraction, matrix repetition, the two loops, the `ids`
array, the final deduplication, and the `ProblemInfo` construction. -/
def get_problem_info_after_check (exp_threshold : Int) (tasks : List String)
    (people : List (String × Person))
    (people_demand women_demand parents_demand : String → Option Int)
    (days : List String) (sheet_info : List (String × String × String)) :
    Except PyErr ProblemInfo :=
  let n_p_units := people.length
  let n_days := days.length
  let n_tasks := tasks.length
  match mapExcept (dictGetE people_demand) tasks with
  | .error e => .error e
  | .ok people_demand_list =>
    match mapExcept (dictGetE women_demand) tasks with
    | .error e => .error e
    | .ok women_demand_list =>
      match mapExcept (dictGetE parents_demand) tasks with
      | .error e => .error e
      | .ok parents_demand_list =>
        let people_per_task := (List.range n_days).map (fun _ => people_demand_list)
        let women_per_task := (List.range n_days).map (fun _ => women_demand_list)
        let parents_per_task := (List.range n_days).map (fun _ => parents_demand_list)
        match peopleLoop tasks n_days exp_threshold 0 people with
        | .error e => .error e
        | .ok (names, n_people, n_women, n_parents, reject0) =>
          match sheetLoop tasks days (people.map Prod.fst) n_tasks sheet_info
              (reject0, []) with
          | .error e => .error e
          | .ok (reject1, force1) =>
            let ids := people.map (fun pr => PyId.str pr.1)
            .ok ⟨n_p_units, n_days, n_tasks, tasks, ids, names, days,
                 people_per_task, women_per_task, parents_per_task,
                 n_people, n_women, n_parents,
                 pySetList reject1, pySetList force1⟩

/-- Embedding of `get_problem_info` from `src/data_input.py`, taking the
outputs of the three spreadsheet readers as inputs.  The `tasks !=
tasks_check` comparison is Python list equality on the two task-name
lists. -/
def get_problem_info (exp_threshold : Int) (tasks : List String)
    (people : List (String × Person)) (tasks_check : List String)
    (people_demand women_demand parents_demand : String → Option Int)
    (days : List String) (sheet_info : List (String × String × String)) :
    Except PyErr ProblemInfo :=
  if tasks ≠ tasks_check then .error .filesMismatch
  else get_problem_info_after_check exp_threshold tasks people
    people_demand women_demand parents_demand days sheet_info

theorem dictGetE_error {f : String → Option Int} {s : String} {e : PyErr}
    (h : dictGetE f s = .error e) : e = .keyError := by
  unfold dictGetE at h
  cases hf : f s with
  | none => rw [hf] at h; cases h; rfl
  | some v => rw [hf] at h; cases h

theorem indexE_error [DecidableEq α] {l : List α} {a : α} {e : PyErr}
    (h : indexE l a = .error e) : e = .valueError := by
  unfold indexE at h
  cases hf : l.findIdx? (fun x => x = a) with
  | none => rw [hf] at h; cases h; rfl
  | some i => rw [hf] at h; cases h

theorem idToIE_error {keys : List String} {s : String} {e : PyErr}
    (h : idToIE keys s = .error e) : e = .keyError := by
  unfold idToIE at h
  cases hf : keys.findIdx? (fun x => x = s) with
  | none => rw [hf] at h; cases h; rfl
  | some i => rw [hf] at h; cases h

theorem mapExcept_error {f : α → Except PyErr β} {l : List α} {e : PyErr}
    (hf : ∀ a e', f a = .error e' → e' = .keyError)
    (h : mapExcept f l = .error e) : e = .keyError := by
  induction l with
  | nil => cases h
  | cons a t ih =>
    unfold mapExcept at h
    cases hfa : f a with
    | error e' => rw [hfa] at h; cases h; exact hf a _ hfa
    | ok b =>
      rw [hfa] at h
      cases hmt : mapExcept f t with
      | error e' => rw [hmt] at h; cases h; exact ih hmt
      | ok bs => rw [hmt] at h; cases h

theorem taskRejects_error {tasks : List String} {nDays i : Nat}
    {ta : List (String × String)} {e : PyErr}
    (h : taskRejects tasks nDays i ta = .error e) : e = .valueError := by
  induction ta with
  | nil => cases h
  | cons p rest ih =>
    unfold taskRejects at h
    cases hk : indexE tasks p.1 with
    | error e' => rw [hk] at h; cases h; exact indexE_error hk
    | ok k =>
      rw [hk] at h
      cases hr : taskRejects tasks nDays i rest with
      | error e' => rw [hr] at h; cases h; exact ih hr
      | ok r => rw [hr] at h; cases h

theorem peopleLoop_error {tasks : List String} {nDays : Nat} {et : Int}
    {people : List (String × Person)} {e : PyErr} :
    ∀ {i : Nat}, peopleLoop tasks nDays et i people = .error e → e = .valueError := by
  induction people with
  | nil => intro i h; cases h
  | cons p rest ih =>
    intro i h
    unfold peopleLoop at h
    cases hk : taskRejects tasks nDays i p.2.task_answ with
    | error e' => rw [hk] at h; cases h; exact taskRejects_error hk
    | ok rj =>
      rw [hk] at h
      cases hr : peopleLoop tasks nDays et (i + 1) rest with
      | error e' => rw [hr] at h; cases h; exact ih hr
      | ok tup => rw [hr] at h; obtain ⟨ns, np, nw, npar, rjs⟩ := tup; cases h

theorem sheetLoop_error {tasks days keys : List String} {nTasks : Nat}
    {sheet : List (String × String × String)} {e : PyErr} :
    ∀ {acc : List Triple × List Triple},
      sheetLoop tasks days keys nTasks sheet acc = .error e → e ≠ .filesMismatch := by
  induction sheet with
  | nil => intro acc h; cases h
  | cons rec rest ih =>
    intro acc h
    obtain ⟨id_, day, info⟩ := rec
    obtain ⟨rej, fr⟩ := acc
    unfold sheetLoop at h
    cases hi : idToIE keys id_ with
    | error e' =>
      simp only [hi] at h; cases h
      rw [idToIE_error hi]; intro hc; cases hc
    | ok i =>
      simp only [hi] at h
      cases hj : indexE days day with
      | error e' =>
        simp only [hj] at h; cases h
        rw [indexE_error hj]; intro hc; cases hc
      | ok j =>
        simp only [hj] at h
        by_cases hmem : info ∈ tasks
        · rw [if_pos hmem] at h
          cases hk : indexE tasks info with
          | error e' =>
            simp only [hk] at h; cases h
            rw [indexE_error hk]; intro hc; cases hc
          | ok k =>
            simp only [hk] at h
            exact ih h
        · rw [if_neg hmem] at h
          by_cases hind : info = "indisp"
          · rw [if_pos hind] at h
            exact ih h
          · rw [if_neg hind] at h
            exact ih h

theorem get_problem_info_after_check_no_mismatch
    {et : Int} {tasks : List String} {people : List (String × Person)}
    {pd wd ed : String → Option Int} {days : List String}
    {sheet : List (String × String × String)} :
    get_problem_info_after_check et tasks people pd wd ed days sheet
      ≠ .error .filesMismatch := by
  intro h
  unfold get_problem_info_after_check at h
  cases h1 : mapExcept (dictGetE pd) tasks with
  | error e => simp only [h1] at h; cases h; cases mapExcept_error (fun a e' he => dictGetE_error he) h1
  | ok pdl =>
    simp only [h1] at h
    cases h2 : mapExcept (dictGetE wd) tasks with
    | error e => simp only [h2] at h; cases h; cases mapExcept_error (fun a e' he => dictGetE_error he) h2
    | ok wdl =>
      simp only [h2] at h
      cases h3 : mapExcept (dictGetE ed) tasks with
      | error e => simp only [h3] at h; cases h; cases mapExcept_error (fun a e' he => dictGetE_error he) h3
      | ok edl =>
        simp only [h3] at h
        cases h4 : peopleLoop tasks days.length et 0 people with
        | error e => simp only [h4] at h; cases h; cases peopleLoop_error h4
        | ok tup =>
          simp only [h4] at h
          obtain ⟨ns, np, nw, npar, rj0⟩ := tup
          cases h5 : sheetLoop tasks days (people.map Prod.fst) tasks.length sheet (rj0, []) with
          | error e =>
            simp only [h5] at h; cases h
            exact sheetLoop_error h5 rfl
          | ok acc =>
            simp only [h5] at h
            obtain ⟨rj1, fr1⟩ := acc
            cases h

/-- Demand dict used in concrete normalizer runs. -/
def demandOne : String → Option Int := fun _ => some 1

/-- Demand dict used in concrete normalizer runs (all zero). -/
def demandZero : String → Option Int := fun _ => some 0

/-- C7 counterexample: the roster and demand streams carry the same task
names as sets — `["a", "b"]` versus `["b", "a"]` — yet `get_problem_info`
raises `ConsistencyBetweenFilesError`, because the source compares the two
task-name lists with `tasks != tasks_check` (order-sensitive Python list
equality), not as sets. -/
theorem c7_counterexample :
    get_problem_info 3 ["a", "b"] [] ["b", "a"]
        demandOne demandZero demandZero [] [] = .error .filesMismatch ∧
    (∀ t ∈ ["a", "b"], t ∈ ["b", "a"]) ∧ (∀ t ∈ ["b", "a"], t ∈ ["a", "b"]) :=
  ⟨by decide, by decide, by decide⟩

/-- C7 amended: normalization fails with `ConsistencyBetweenFilesError`
exactly when the task-name list read from the roster stream differs, as an
ordered list, from the task-name list read from the demand stream; equal
sets in different orders still fail. -/
theorem c7_task_list_equality (exp_threshold : Int) (tasks : List String)
    (people : List (String × Person)) (tasks_check : List String)
    (pd wd ed : String → Option Int) (days : List String)
    (sheet : List (String × String × String)) :
    get_problem_info exp_threshold tasks people tasks_check pd wd ed days sheet
      = .error .filesMismatch ↔ tasks ≠ tasks_check := by
  constructor
  · intro h hne
    unfold get_problem_info at h
    rw [if_neg (by simp [hne])] at h
    exact get_problem_info_after_check_no_mismatch h
  · intro hne
    unfold get_problem_info
    rw [if_pos hne]

theorem c7_task_list_equality_witness :
    get_problem_info 3 ["a", "b"] [] ["b", "a"]
        demandOne demandZero demandZero [] [] = .error .filesMismatch :=
  (c7_task_list_equality 3 ["a", "b"] [] ["b", "a"]
    demandOne demandZero demandZero [] []).mpr (by decide)

/-- Output of the normalizer on a roster where person `p` refuses task `T`
(producing a rejection on every day) while the availability sheet forces
`p` onto `T` on day `d`: the triple `(0, 0, 0)` lands in `force` and in
`reject` at the same time. -/
def c5Info : ProblemInfo :=
  ⟨1, 1, 1, ["T"], [.str "p"], ["P"], ["d"], [[1]], [[0]], [[0]],
   [1], [1], [0], [(0, 0, 0)], [(0, 0, 0)]⟩

/-- C5 counterexample: `get_problem_info` deduplicates `force` and
`reject` separately but never empties their intersection — when an
availability cell forces a task the person's roster answer refused, the
same triple appears in both lists. -/
theorem c5_counterexample :
    get_problem_info 3 ["T"] [("p", ⟨"P", "F", 0, [("T", "Não Aceito")]⟩)] ["T"]
        demandOne demandZero demandZero ["d"] [("p", "d", "T")] = .ok c5Info ∧
    (0, 0, 0) ∈ c5Info.force ∧ (0, 0, 0) ∈ c5Info.reject := by
  refine ⟨?_, by decide, by decide⟩
  decide

/-- C5 amended: every `ProblemInfo` produced by the normalizer has
duplicate-free `force` and `reject` lists (`list(set(...))` is applied to
both); the intersection of the two may be non-empty. -/
theorem c5_force_reject_nodup (exp_threshold : Int) (tasks : List String)
    (people : List (String × Person)) (tasks_check : List String)
    (pd wd ed : String → Option Int) (days : List String)
    (sheet : List (String × String × String)) (pi : ProblemInfo)
    (h : get_problem_info exp_threshold tasks people tasks_check pd wd ed days sheet
      = .ok pi) :
    pi.force.Nodup ∧ pi.reject.Nodup := by
  unfold get_problem_info at h
  by_cases hne : tasks ≠ tasks_check
  · rw [if_pos hne] at h; cases h
  · rw [if_neg hne] at h
    unfold get_problem_info_after_check at h
    cases h1 : mapExcept (dictGetE pd) tasks with
    | error e => simp only [h1] at h; cases h
    | ok pdl =>
      simp only [h1] at h
      cases h2 : mapExcept (dictGetE wd) tasks with
      | error e => simp only [h2] at h; cases h
      | ok wdl =>
        simp only [h2] at h
        cases h3 : mapExcept (dictGetE ed) tasks with
        | error e => simp only [h3] at h; cases h
        | ok edl =>
          simp only [h3] at h
          cases h4 : peopleLoop tasks days.length exp_threshold 0 people with
          | error e => simp only [h4] at h; cases h
          | ok tup =>
            simp only [h4] at h
            obtain ⟨ns, np, nw, npar, rj0⟩ := tup
            cases h5 : sheetLoop tasks days (people.map Prod.fst) tasks.length
                sheet (rj0, []) with
            | error e => simp only [h5] at h; cases h
            | ok acc =>
              simp only [h5] at h
              obtain ⟨rj1, fr1⟩ := acc
              cases h
              exact ⟨pySetList_nodup fr1, pySetList_nodup rj1⟩

theorem c5_force_reject_nodup_witness :
    c5Info.force.Nodup ∧ c5Info.reject.Nodup :=
  c5_force_reject_nodup 3 ["T"] [("p", ⟨"P", "F", 0, [("T", "Não Aceito")]⟩)] ["T"]
    demandOne demandZero demandZero ["d"] [("p", "d", "T")] c5Info (by decide)

/-!
Embedding of `make_group` from `sapi.py`.

The Python function copies the roster lists of the incoming `ProblemInfo`,
pops the fused units out of the copies one key at a time (recording the
vacated original positions in `indexes_of_group` and tracking the remaining
original positions in `index_struct`), rewrites every `force`/`reject`
triple, deduplicates, drops force entries that are also rejected, and
appends the composite unit.  The loop body is `groupStep`, the whole loop
`groupLoop`; the per-iteration mutable locals form the `GState` record.
-/

/-- The mutable local state of `make_group`'s key loop: the working copies
of the roster lists, the bookkeeping lists for the index remap, the
accumulators for the composite unit, and the shrinking `n_p_units`. -/
structure GState where
  names : List String
  ids : List PyId
  n_people : List Int
  n_women : List Int
  n_parents : List Int
  index_struct : List Nat
  indexes_of_group : List Nat
  people : Int
  women : Int
  parents : Int
  new_names : String
  new_ids : List PyId
  first_name : Bool
  n_p_units : Nat
deriving Repr, DecidableEq

/-- One iteration of `for id_ in list_of_ids` in `make_group`:
`index = instance_ids.index(id_)` (raising `ValueError` — the spec's
`UnknownUnit` — when absent), then the parallel `pop(index)` calls and the
accumulator updates, in source order. -/
def groupStep (st : GState) (id_ : PyId) : Except PyErr GState :=
  match indexE st.ids id_ with
  | .error e => .error e
  | .ok index =>
    .ok { names := st.names.eraseIdx index
        , ids := st.ids.eraseIdx index
        , n_people := st.n_people.eraseIdx index
        , n_women := st.n_women.eraseIdx index
        , n_parents := st.n_parents.eraseIdx index
        , index_struct := st.index_struct.eraseIdx index
        , indexes_of_group := st.indexes_of_group ++ [st.index_struct.getD index 0]
        , people := st.people + vecGet st.n_people index
        , women := st.women + vecGet st.n_women index
        , parents := st.parents + vecGet st.n_parents index
        , new_names :=
            (if st.first_name then st.new_names else st.new_names ++ ", ")
              ++ st.names.getD index ""
        , new_ids := st.new_ids ++ [st.ids.getD index .nil]
        , first_name := false
        , n_p_units := st.n_p_units - 1 }

/-- The key loop of `make_group`. -/
def groupLoop (st : GState) : List PyId → Except PyErr GState
  | [] => .ok st
  | id_ :: rest =>
    match groupStep st id_ with
    | .error e => .error e
    | .ok st' => groupLoop st' rest

/-- The initial values of `make_group`'s locals: sliced/`np.copy`-ed copies
of the roster lists, `index_struct = list(range(n_p_units))`, and empty
accumulators. -/
def initGState (p : ProblemInfo) : GState :=
  ⟨p.names, p.ids, p.n_people, p.n_women, p.n_parents,
   List.range p.n_p_units, [], 0, 0, 0, "", [], true, p.n_p_units⟩

/-- The triple rewrite of `make_group`: a triple whose unit index was
fused moves to `group_index`; any other triple's unit index is looked up in
`index_struct` (`ValueError` when out of range). -/
def remapTriple (indexes_of_group : List Nat) (group_index : Nat)
    (index_struct : List Nat) (t : Triple) : Except PyErr Triple :=
  if t.1 ∈ indexes_of_group then .ok (group_index, t.2.1, t.2.2)
  else
    match indexE index_struct t.1 with
    | .error e => .error e
    | .ok n => .ok (n, t.2.1, t.2.2)

/-- Embedding of `make_group(list_of_ids, prb_info)` from `sapi.py`. -/
def make_group (list_of_ids : List PyId) (p : ProblemInfo) :
    Except PyErr ProblemInfo :=
  match groupLoop (initGState p) list_of_ids with
  | .error e => .error e
  | .ok st =>
    let group_index := p.n_p_units - list_of_ids.length
    match mapExcept
        (remapTriple st.indexes_of_group group_index st.index_struct) p.force with
    | .error e => .error e
    | .ok force0 =>
      match mapExcept
          (remapTriple st.indexes_of_group group_index st.index_struct) p.reject with
      | .error e => .error e
      | .ok reject0 =>
        let force1 := pySetList force0
        let reject1 := pySetList reject0
        let force2 := force1.filter (fun t => t ∉ reject1)
        .ok ⟨st.n_p_units + 1, p.n_days, p.n_tasks, p.tasks,
             st.ids ++ [pyList st.new_ids], st.names ++ [st.new_names], p.days,
             p.people_per_task, p.women_per_task, p.parents_per_task,
             st.n_people ++ [st.people], st.n_women ++ [st.women],
             st.n_parents ++ [st.parents], reject1, force2⟩

/-- Parallel roster arrays of a `ProblemInfo` all have length
`n_p_units`. -/
def ProblemInfo.wellFormed (p : ProblemInfo) : Prop :=
  p.names.length = p.n_p_units ∧ p.ids.length = p.n_p_units ∧
  p.n_people.length = p.n_p_units ∧ p.n_women.length = p.n_p_units ∧
  p.n_parents.length = p.n_p_units

instance (p : ProblemInfo) : Decidable p.wellFormed := by
  unfold ProblemInfo.wellFormed; infer_instance

/-- Position of the first occurrence of an identifier in an id list. -/
def posOf (ids : List PyId) (k : PyId) : Nat := ids.findIdx (fun x => x = k)

/-- String concatenation with a separator, matching the incremental
`new_names += ', '; new_names += name` accumulation of `make_group`. -/
def joinStrs (sep : String) : List String → String
  | [] => ""
  | [a] => a
  | a :: b :: rest => a ++ sep ++ joinStrs sep (b :: rest)

theorem map_getD_range (l : List α) (d : α) :
    (List.range l.length).map (fun i => l.getD i d) = l := by
  apply List.ext_getElem
  · simp
  · intro i h1 h2
    simp only [List.getElem_map, List.getElem_range]
    rw [List.getD_eq_getElem l d h2]

theorem findIdx?_append_cons (pr : α → Bool) (xs : List α) (y : α) (zs : List α)
    (hx : ∀ x ∈ xs, pr x = false) (hy : pr y = true) :
    (xs ++ y :: zs).findIdx? pr = some xs.length := by
  induction xs with
  | nil => simp [List.findIdx?_cons, hy]
  | cons a t ih =>
    have ha : pr a = false := hx a (by simp)
    simp only [List.cons_append, List.findIdx?_cons, ha, Bool.false_eq_true, if_false,
      List.findIdx?_succ]
    rw [ih (fun x hx2 => hx x (by simp [hx2]))]
    simp

theorem eraseIdx_append_cons (xs : List α) (y : α) (zs : List α) :
    (xs ++ y :: zs).eraseIdx xs.length = xs ++ zs := by
  induction xs with
  | nil => simp [List.eraseIdx]
  | cons a t ih => simp [List.eraseIdx, ih]

theorem getD_append_cons (xs : List α) (y : α) (zs : List α) (d : α) :
    (xs ++ y :: zs).getD xs.length d = y := by
  induction xs with
  | nil => simp [List.getD]
  | cons a t ih => simpa [List.getD] using ih

theorem posOf_spec (l : List PyId) (k : PyId) (hk : k ∈ l) :
    posOf l k < l.length ∧ l.getD (posOf l k) .nil = k := by
  induction l with
  | nil => simp at hk
  | cons b t ih =>
    unfold posOf
    rw [List.findIdx_cons]
    by_cases hb : b = k
    · simp [hb]
    · have hkt : k ∈ t := by
        rcases List.mem_cons.mp hk with h | h
        · exact absurd h.symm hb
        · exact h
      obtain ⟨ih1, ih2⟩ := ih hkt
      have hdec : decide (b = k) = false := by simp [hb]
      rw [hdec]
      simp only [cond_false]
      constructor
      · exact Nat.succ_lt_succ ih1
      · simpa [List.getD] using ih2

theorem getD_eq_posOf_iff (l : List PyId) (hnd : l.Nodup) (k : PyId)
    (hk : k ∈ l) (i : Nat) (hi : i < l.length) :
    l.getD i .nil = k ↔ i = posOf l k := by
  obtain ⟨hlt, hget⟩ := posOf_spec l k hk
  constructor
  · intro h
    have : l[i] = l[posOf l k] := by
      rw [← List.getD_eq_getElem l .nil hi, ← List.getD_eq_getElem l .nil hlt, h, hget]
    exact (hnd.getElem_inj_iff).mp this
  · intro h; rw [h]; exact hget

theorem posOf_inj (l : List PyId) {k1 k2 : PyId} (h1 : k1 ∈ l) (h2 : k2 ∈ l)
    (h : posOf l k1 = posOf l k2) : k1 = k2 := by
  obtain ⟨_, hg1⟩ := posOf_spec l k1 h1
  obtain ⟨_, hg2⟩ := posOf_spec l k2 h2
  rw [← hg1, ← hg2, h]

theorem indexE_of_not_mem [DecidableEq α] {l : List α} {a : α} (h : a ∉ l) :
    indexE l a = .error .valueError := by
  unfold indexE
  rw [(List.findIdx?_eq_none_iff).mpr ?_]
  intro x hx
  simp only [decide_eq_false_iff_not]
  intro he
  exact h (he ▸ hx)

theorem filter_notMem_append (l R : List Nat) (x : Nat) :
    l.filter (fun a => a ∉ R ++ [x])
      = (l.filter (fun a => a ∉ R)).filter (fun a => a ≠ x) := by
  rw [List.filter_filter]
  apply List.filter_congr
  intro a _
  by_cases hR : a ∈ R <;> by_cases hx : a = x <;> simp [hR, hx, List.mem_append]

theorem joinStrs_append_singleton (sep : String) (xs : List String) (y : String) :
    joinStrs sep (xs ++ [y]) = if xs.isEmpty then y else joinStrs sep xs ++ sep ++ y := by
  induction xs with
  | nil => rfl
  | cons a t ih =>
    cases t with
    | nil => rfl
    | cons b t2 =>
      have h1 : ((a :: b :: t2) ++ [y]) = a :: b :: (t2 ++ [y]) := by simp
      rw [h1]
      have h2 : joinStrs sep (a :: b :: (t2 ++ [y]))
          = a ++ sep ++ joinStrs sep (b :: (t2 ++ [y])) := rfl
      rw [h2]
      have h3 : (b :: (t2 ++ [y])) = ((b :: t2) ++ [y]) := by simp
      rw [h3, ih]
      have h4 : joinStrs sep (a :: b :: t2) = a ++ sep ++ joinStrs sep (b :: t2) := rfl
      simp only [List.isEmpty_cons, Bool.false_eq_true, if_false, h4]
      simp [String.append_assoc]

theorem indexE_of_mem [DecidableEq α] {l : List α} {a : α} (h : a ∈ l) :
    indexE l a = .ok (l.findIdx (fun x => x = a)) := by
  unfold indexE
  cases hf : l.findIdx? (fun x => x = a) with
  | none =>
    rw [List.findIdx?_eq_none_iff] at hf
    have := hf a h
    simp at this
  | some i => rw [List.findIdx_eq_findIdx?, hf]

/-- The original positions still present after removing the positions in
`R` from `list(range(U))`, in order: the loop's `index_struct`. -/
def keepList (u : Nat) (R : List Nat) : List Nat :=
  (List.range u).filter (fun i => i ∉ R)

/-- The state of `make_group`'s loop after the units at original positions
`R` (in that order) have been popped: every working copy is the original
array restricted to the remaining positions, and the accumulators hold the
popped units' data. -/
def stateOf (p : ProblemInfo) (R : List Nat) : GState :=
  ⟨(keepList p.n_p_units R).map (fun i => p.names.getD i ""),
   (keepList p.n_p_units R).map (fun i => p.ids.getD i .nil),
   (keepList p.n_p_units R).map (fun i => vecGet p.n_people i),
   (keepList p.n_p_units R).map (fun i => vecGet p.n_women i),
   (keepList p.n_p_units R).map (fun i => vecGet p.n_parents i),
   keepList p.n_p_units R,
   R,
   (R.map (fun i => vecGet p.n_people i)).sum,
   (R.map (fun i => vecGet p.n_women i)).sum,
   (R.map (fun i => vecGet p.n_parents i)).sum,
   joinStrs ", " (R.map (fun i => p.names.getD i "")),
   R.map (fun i => p.ids.getD i .nil),
   R.isEmpty,
   p.n_p_units - R.length⟩

theorem initGState_eq_stateOf (p : ProblemInfo) (hwf : p.wellFormed) :
    initGState p = stateOf p [] := by
  obtain ⟨h1, h2, h3, h4, h5⟩ := hwf
  have hkeep : keepList p.n_p_units [] = List.range p.n_p_units := by
    simp [keepList]
  have e1 : (List.range p.n_p_units).map (fun i => p.names.getD i "") = p.names := by
    rw [← h1]; exact map_getD_range p.names ""
  have e2 : (List.range p.n_p_units).map (fun i => p.ids.getD i .nil) = p.ids := by
    rw [← h2]; exact map_getD_range p.ids .nil
  have e3 : (List.range p.n_p_units).map (fun i => vecGet p.n_people i) = p.n_people := by
    rw [← h3]; exact map_getD_range p.n_people 0
  have e4 : (List.range p.n_p_units).map (fun i => vecGet p.n_women i) = p.n_women := by
    rw [← h4]; exact map_getD_range p.n_women 0
  have e5 : (List.range p.n_p_units).map (fun i => vecGet p.n_parents i) = p.n_parents := by
    rw [← h5]; exact map_getD_range p.n_parents 0
  unfold initGState stateOf
  rw [hkeep, e1, e2, e3, e4, e5]
  simp
  rfl

theorem groupStep_stateOf (p : ProblemInfo) (hnd : p.ids.Nodup)
    (hidslen : p.ids.length = p.n_p_units)
    (R : List Nat) (k : PyId) (hk : k ∈ p.ids)
    (hpos : posOf p.ids k ∉ R) :
    groupStep (stateOf p R) k = .ok (stateOf p (R ++ [posOf p.ids k])) := by
  have hposU : posOf p.ids k < p.n_p_units := hidslen ▸ (posOf_spec p.ids k hk).1
  have hgetpos : p.ids.getD (posOf p.ids k) .nil = k := (posOf_spec p.ids k hk).2
  have hkeepnd : (keepList p.n_p_units R).Nodup :=
    (List.nodup_range p.n_p_units).filter _
  have hposkeep : posOf p.ids k ∈ keepList p.n_p_units R := by
    simp [keepList, List.mem_filter, List.mem_range, hposU, hpos]
  obtain ⟨ka, kb, hsplit⟩ := List.append_of_mem hposkeep
  set pos := posOf p.ids k with hposdef
  have hnd2 : (ka ++ pos :: kb).Nodup := hsplit ▸ hkeepnd
  obtain ⟨hkand, hconsnd, hdisj⟩ := List.nodup_append.mp hnd2
  have hkaPos : pos ∉ ka := fun hmem => hdisj hmem (by simp)
  have hkbPos : pos ∉ kb := (List.nodup_cons.mp hconsnd).1
  have hkeepmem : ∀ i ∈ keepList p.n_p_units R, i < p.n_p_units ∧ i ∉ R := by
    intro i hi
    simpa [keepList, List.mem_filter, List.mem_range] using hi
  have hkamem : ∀ i ∈ ka, i < p.n_p_units ∧ i ≠ pos := by
    intro i hi
    refine ⟨(hkeepmem i (hsplit ▸ List.mem_append_left _ hi)).1, ?_⟩
    intro he; exact hkaPos (he ▸ hi)
  have hkbmem : ∀ i ∈ kb, i < p.n_p_units ∧ i ≠ pos := by
    intro i hi
    refine ⟨(hkeepmem i (hsplit ▸ List.mem_append_right _ (by simp [hi]))).1, ?_⟩
    intro he; exact hkbPos (he ▸ hi)
  have hmapsplit : ∀ {β : Type} (f : Nat → β),
      (keepList p.n_p_units R).map f = ka.map f ++ f pos :: kb.map f := by
    intro β f; rw [hsplit]; simp
  have hkeep' : keepList p.n_p_units (R ++ [pos]) = ka ++ kb := by
    unfold keepList
    rw [filter_notMem_append]
    have : (List.range p.n_p_units).filter (fun i => i ∉ R) = keepList p.n_p_units R := rfl
    rw [this, hsplit, List.filter_append, List.filter_cons]
    have hpp : (decide (pos ≠ pos)) = false := by simp
    rw [hpp]
    simp only [Bool.false_eq_true, if_false]
    rw [List.filter_eq_self.mpr (fun a ha => by simp [(hkamem a ha).2]),
        List.filter_eq_self.mpr (fun a ha => by simp [(hkbmem a ha).2])]
  have hidx : indexE ((keepList p.n_p_units R).map (fun i => p.ids.getD i .nil)) k
      = .ok ka.length := by
    unfold indexE
    rw [hmapsplit (fun i => p.ids.getD i .nil)]
    rw [findIdx?_append_cons _ _ _ _ ?_ ?_]
    · simp
    · intro x hx
      simp only [List.mem_map] at hx
      obtain ⟨i, hi, hxe⟩ := hx
      simp only [decide_eq_false_iff_not]
      intro hik
      rw [← hxe] at hik
      have hilen : i < p.ids.length := hidslen ▸ (hkamem i hi).1
      exact (hkamem i hi).2 ((getD_eq_posOf_iff p.ids hnd k hk i hilen).mp hik)
    · rw [hgetpos]; simp
  have herase : ∀ {β : Type} (f : Nat → β),
      ((keepList p.n_p_units R).map f).eraseIdx ka.length
        = (keepList p.n_p_units (R ++ [pos])).map f := by
    intro β f
    rw [hmapsplit f, hkeep']
    rw [show ka.length = (ka.map f).length from (List.length_map ka f).symm]
    rw [eraseIdx_append_cons]
    simp
  have hgetD : ∀ {β : Type} (f : Nat → β) (d : β),
      ((keepList p.n_p_units R).map f).getD ka.length d = f pos := by
    intro β f d
    rw [hmapsplit f]
    rw [show ka.length = (ka.map f).length from (List.length_map ka f).symm]
    exact getD_append_cons _ _ _ _
  have hidxstruct : (keepList p.n_p_units R).eraseIdx ka.length
      = keepList p.n_p_units (R ++ [pos]) := by
    rw [hsplit, eraseIdx_append_cons, hkeep']
  have hgetpos2 : (keepList p.n_p_units R).getD ka.length 0 = pos := by
    rw [hsplit]; exact getD_append_cons _ _ _ _
  show groupStep (stateOf p R) k = _
  unfold groupStep stateOf
  simp only []
  rw [hidx]
  refine congrArg Except.ok ?_
  simp only [GState.mk.injEq]
  refine ⟨herase _, herase _, herase _, herase _, herase _, hidxstruct, ?_, ?_, ?_, ?_,
    ?_, ?_, ?_, ?_⟩
  · rw [hgetpos2]
  · show _ + vecGet ((keepList p.n_p_units R).map (fun i => vecGet p.n_people i)) ka.length = _
    unfold vecGet
    rw [hgetD (fun i => (p.n_people.getD i 0)) 0]
    simp [List.sum_append]
  · show _ + vecGet ((keepList p.n_p_units R).map (fun i => vecGet p.n_women i)) ka.length = _
    unfold vecGet
    rw [hgetD (fun i => (p.n_women.getD i 0)) 0]
    simp [List.sum_append]
  · show _ + vecGet ((keepList p.n_p_units R).map (fun i => vecGet p.n_parents i)) ka.length = _
    unfold vecGet
    rw [hgetD (fun i => (p.n_parents.getD i 0)) 0]
    simp [List.sum_append]
  · rw [hgetD (fun i => p.names.getD i "") ""]
    rw [List.map_append]
    simp only [List.map_cons, List.map_nil]
    rw [joinStrs_append_singleton]
    have hie : (R.map (fun i => p.names.getD i "")).isEmpty = R.isEmpty := by
      cases R <;> simp
    rw [hie]
    cases hR : R.isEmpty
    · simp only [Bool.false_eq_true, if_false]
    · simp only [if_true]
      have : R = [] := by
        cases R with
        | nil => rfl
        | cons a t => simp at hR
      subst this
      show ("" : String) ++ _ = _
      rw [String.empty_append]
  · rw [hgetD (fun i => p.ids.getD i .nil) .nil]
    simp
  · simp
  · simp [Nat.sub_sub]

theorem groupLoop_stateOf (p : ProblemInfo) (hnd : p.ids.Nodup)
    (hidslen : p.ids.length = p.n_p_units) :
    ∀ (keys : List PyId) (R : List Nat),
      (∀ k ∈ keys, k ∈ p.ids) →
      (∀ k ∈ keys, posOf p.ids k ∉ R) →
      (keys.map (posOf p.ids)).Nodup →
      groupLoop (stateOf p R) keys = .ok (stateOf p (R ++ keys.map (posOf p.ids))) := by
  intro keys
  induction keys with
  | nil => intro R _ _ _; simp [groupLoop]
  | cons k rest ih =>
    intro R hmem hRdis hnd2
    unfold groupLoop
    rw [groupStep_stateOf p hnd hidslen R k (hmem k (by simp)) (hRdis k (by simp))]
    have hrec := ih (R ++ [posOf p.ids k])
      (fun k2 h2 => hmem k2 (by simp [h2])) ?_ ?_
    · show groupLoop (stateOf p (R ++ [posOf p.ids k])) rest = _
      rw [hrec]
      have : (R ++ [posOf p.ids k]) ++ rest.map (posOf p.ids)
          = R ++ (k :: rest).map (posOf p.ids) := by simp
      rw [this]
    · intro k2 h2
      simp only [List.mem_append, List.mem_singleton]
      push_neg
      refine ⟨hRdis k2 (by simp [h2]), ?_⟩
      intro he
      have hmk : posOf p.ids k ∈ rest.map (posOf p.ids) :=
        he ▸ List.mem_map_of_mem (posOf p.ids) h2
      exact (List.nodup_cons.mp (by simpa using hnd2)).1 hmk
    · exact (List.nodup_cons.mp (by simpa using hnd2)).2

theorem mapExcept_ok {f : α → Except PyErr β} {g : α → β} {l : List α}
    (h : ∀ a ∈ l, f a = .ok (g a)) : mapExcept f l = .ok (l.map g) := by
  induction l with
  | nil => rfl
  | cons a t ih =>
    unfold mapExcept
    rw [h a (by simp), ih (fun x hx => h x (by simp [hx]))]
    rfl

/-- The index rewrite of the grouping transformation, stated as in spec
§4.2 step 4: a triple whose unit index is in the fused set moves to the
composite's index `U − g`; any other triple's unit index `i` maps to the
position of `i` among the remaining (non-removed) original indices in
order. -/
def specRemap (p : ProblemInfo) (keys : List PyId) (t : Triple) : Triple :=
  if t.1 ∈ keys.map (posOf p.ids) then (p.n_p_units - keys.length, t.2.1, t.2.2)
  else ((keepList p.n_p_units (keys.map (posOf p.ids))).findIdx (fun x => x = t.1),
        t.2.1, t.2.2)

theorem remapTriple_ok (p : ProblemInfo) (keys : List PyId) (t : Triple)
    (ht : t.1 < p.n_p_units) :
    remapTriple (keys.map (posOf p.ids)) (p.n_p_units - keys.length)
      (keepList p.n_p_units (keys.map (posOf p.ids))) t
      = .ok (specRemap p keys t) := by
  unfold remapTriple specRemap
  by_cases hmem : t.1 ∈ keys.map (posOf p.ids)
  · rw [if_pos hmem, if_pos hmem]
  · rw [if_neg hmem, if_neg hmem]
    have hkeep : t.1 ∈ keepList p.n_p_units (keys.map (posOf p.ids)) := by
      refine List.mem_filter.mpr ⟨List.mem_range.mpr ht, ?_⟩
      simp [hmem]
    rw [indexE_of_mem hkeep]

/-- What `make_group` returns on a well-formed input whose keys are all
present: the kept units in order, the composite appended, the triples
rewritten by `specRemap`, deduplicated, with rejected force entries
dropped. -/
def groupResult (p : ProblemInfo) (keys : List PyId) : ProblemInfo :=
  ⟨p.n_p_units - (keys.map (posOf p.ids)).length + 1, p.n_days, p.n_tasks, p.tasks,
   (keepList p.n_p_units (keys.map (posOf p.ids))).map (fun i => p.ids.getD i .nil)
     ++ [pyList ((keys.map (posOf p.ids)).map (fun i => p.ids.getD i .nil))],
   (keepList p.n_p_units (keys.map (posOf p.ids))).map (fun i => p.names.getD i "")
     ++ [joinStrs ", " ((keys.map (posOf p.ids)).map (fun i => p.names.getD i ""))],
   p.days, p.people_per_task, p.women_per_task, p.parents_per_task,
   (keepList p.n_p_units (keys.map (posOf p.ids))).map (fun i => vecGet p.n_people i)
     ++ [((keys.map (posOf p.ids)).map (fun i => vecGet p.n_people i)).sum],
   (keepList p.n_p_units (keys.map (posOf p.ids))).map (fun i => vecGet p.n_women i)
     ++ [((keys.map (posOf p.ids)).map (fun i => vecGet p.n_women i)).sum],
   (keepList p.n_p_units (keys.map (posOf p.ids))).map (fun i => vecGet p.n_parents i)
     ++ [((keys.map (posOf p.ids)).map (fun i => vecGet p.n_parents i)).sum],
   pySetList (p.reject.map (specRemap p keys)),
   (pySetList (p.force.map (specRemap p keys))).filter
     (fun t => t ∉ pySetList (p.reject.map (specRemap p keys)))⟩

theorem make_group_eq (p : ProblemInfo) (keys : List PyId)
    (hwf : p.wellFormed) (hnd : p.ids.Nodup) (hknd : keys.Nodup)
    (hmem : ∀ k ∈ keys, k ∈ p.ids)
    (hfr : ∀ t ∈ p.force, t.1 < p.n_p_units)
    (hrr : ∀ t ∈ p.reject, t.1 < p.n_p_units) :
    make_group keys p = .ok (groupResult p keys) := by
  have hfnd : (keys.map (posOf p.ids)).Nodup :=
    hknd.map_on (fun x hx y hy he => posOf_inj p.ids (hmem x hx) (hmem y hy) he)
  unfold make_group
  rw [initGState_eq_stateOf p hwf]
  rw [groupLoop_stateOf p hnd hwf.2.1 keys [] hmem (by simp) hfnd]
  have hnil : ([] : List Nat) ++ keys.map (posOf p.ids) = keys.map (posOf p.ids) :=
    List.nil_append _
  rw [hnil]
  simp only [stateOf]
  rw [mapExcept_ok (g := specRemap p keys)
    (fun t htm => remapTriple_ok p keys t (hfr t htm))]
  rw [mapExcept_ok (g := specRemap p keys)
    (fun t htm => remapTriple_ok p keys t (hrr t htm))]
  rfl

theorem groupLoop_error_of_absent (p : ProblemInfo) :
    ∀ (keys : List PyId) (st : GState), (∀ x ∈ st.ids, x ∈ p.ids) →
      (∃ k ∈ keys, k ∉ p.ids) →
      groupLoop st keys = .error .valueError := by
  intro keys
  induction keys with
  | nil =>
    intro st _ h
    obtain ⟨k, hk, _⟩ := h
    simp at hk
  | cons k rest ih =>
    intro st hsub h
    unfold groupLoop
    by_cases hk : k ∈ st.ids
    · rw [groupStep, indexE_of_mem hk]
      apply ih
      · intro x hx
        exact hsub x ((st.ids.eraseIdx_sublist _).mem hx)
      · obtain ⟨k2, hk2, habs⟩ := h
        rcases List.mem_cons.mp hk2 with he | hr
        · subst he
          exact absurd (hsub k2 hk) habs
        · exact ⟨k2, hr, habs⟩
    · rw [groupStep, indexE_of_not_mem hk]

/-- C8: a group operation whose key list contains a key absent from the
current roster ids fails with `ValueError` from `instance_ids.index(id_)`
(the spec's `UnknownUnit`), and never returns a new `ProblemInfo`. -/
theorem c8_unknown_unit (p : ProblemInfo) (keys : List PyId)
    (h : ∃ k ∈ keys, k ∉ p.ids) :
    make_group keys p = .error .valueError ∧
      ∀ q : ProblemInfo, make_group keys p ≠ .ok q := by
  have hloop : groupLoop (initGState p) keys = .error .valueError :=
    groupLoop_error_of_absent p keys (initGState p) (fun x hx => hx) h
  constructor
  · unfold make_group
    rw [hloop]
  · intro q hq
    unfold make_group at hq
    rw [hloop] at hq
    cases hq

/-- Concrete three-singleton roster used to instantiate the grouping
theorems. -/
def cGroupPI : ProblemInfo :=
  ⟨3, 1, 1, ["T"], [.str "a", .str "b", .str "c"], ["A", "B", "C"], ["d"],
   [[2]], [[0]], [[0]], [1, 1, 1], [1, 0, 1], [0, 0, 1],
   [(0, 0, 0), (2, 0, 0)], [(1, 0, 0), (2, 0, 0)]⟩

theorem c8_unknown_unit_witness :
    (∃ k ∈ [PyId.str "z"], k ∉ cGroupPI.ids) ∧
      make_group [PyId.str "z"] cGroupPI = .error .valueError :=
  ⟨by decide, (c8_unknown_unit cGroupPI [PyId.str "z"] (by decide)).1⟩

/-- C3: on a successful group operation (well-formed input, duplicate-free
ids, distinct keys all present, triples in range) the new `reject` holds
exactly the images of the old reject triples under the spec's index
rewrite (`specRemap`: fused unit indices move to the composite index, any
other index moves to its position among the remaining indices in order),
the new `force` holds exactly the rewritten force triples that are not
rejected, and both lists are deduplicated. -/
theorem c3_remap_dedup (p : ProblemInfo) (keys : List PyId) (q : ProblemInfo)
    (hwf : p.wellFormed) (hnd : p.ids.Nodup) (hknd : keys.Nodup)
    (hmem : ∀ k ∈ keys, k ∈ p.ids)
    (hfr : ∀ t ∈ p.force, t.1 < p.n_p_units)
    (hrr : ∀ t ∈ p.reject, t.1 < p.n_p_units)
    (hok : make_group keys p = .ok q) :
    q.reject.Nodup ∧ q.force.Nodup ∧
    (∀ t : Triple, t ∈ q.reject ↔ ∃ s ∈ p.reject, specRemap p keys s = t) ∧
    (∀ t : Triple, t ∈ q.force ↔
      ((∃ s ∈ p.force, specRemap p keys s = t) ∧ t ∉ q.reject)) := by
  have hmg := make_group_eq p keys hwf hnd hknd hmem hfr hrr
  rw [hok] at hmg
  have hq : q = groupResult p keys := Except.ok.inj hmg
  subst hq
  refine ⟨pySetList_nodup _, (pySetList_nodup _).filter _, ?_, ?_⟩
  · intro t
    show t ∈ pySetList (p.reject.map (specRemap p keys)) ↔ _
    rw [mem_pySetList, List.mem_map]
  · intro t
    show t ∈ (pySetList (p.force.map (specRemap p keys))).filter _ ↔ _
    rw [List.mem_filter, mem_pySetList, List.mem_map]
    constructor
    · rintro ⟨⟨s, hs, he⟩, hdec⟩
      refine ⟨⟨s, hs, he⟩, ?_⟩
      simpa using hdec
    · rintro ⟨⟨s, hs, he⟩, hnr⟩
      refine ⟨⟨s, hs, he⟩, ?_⟩
      simpa using hnr

theorem c3_remap_dedup_witness :
    cGroupPI.wellFormed ∧
    (∀ t : Triple,
      t ∈ (groupResult cGroupPI [PyId.str "a", PyId.str "b"]).reject ↔
        ∃ s ∈ cGroupPI.reject,
          specRemap cGroupPI [PyId.str "a", PyId.str "b"] s = t) := by
  refine ⟨by decide, ?_⟩
  have h := c3_remap_dedup cGroupPI [PyId.str "a", PyId.str "b"]
    (groupResult cGroupPI [PyId.str "a", PyId.str "b"])
    (by decide) (by decide) (by decide) (by decide) (by decide) (by decide)
    (by decide)
  exact h.2.2.1

theorem fusedMap_getD (p : ProblemInfo) (keys : List PyId)
    (hmem : ∀ k ∈ keys, k ∈ p.ids) :
    (keys.map (posOf p.ids)).map (fun i => p.ids.getD i .nil) = keys := by
  rw [List.map_map]
  conv_rhs => rw [← List.map_id keys]
  apply List.map_congr_left
  intro k hk
  exact (posOf_spec p.ids k (hmem k hk)).2

theorem mem_fused_iff (p : ProblemInfo) (keys : List PyId)
    (hnd : p.ids.Nodup) (hmem : ∀ k ∈ keys, k ∈ p.ids)
    (hlen : p.ids.length = p.n_p_units)
    (i : Nat) (hi : i < p.n_p_units) :
    i ∈ keys.map (posOf p.ids) ↔ p.ids.getD i .nil ∈ keys := by
  constructor
  · intro hin
    obtain ⟨k, hk, he⟩ := List.mem_map.mp hin
    rw [← he, (posOf_spec p.ids k (hmem k hk)).2]
    exact hk
  · intro hg
    refine List.mem_map.mpr ⟨p.ids.getD i .nil, hg, ?_⟩
    exact ((getD_eq_posOf_iff p.ids hnd _ (hmem _ hg) i (hlen ▸ hi)).mp rfl).symm

theorem keptMap_ids (p : ProblemInfo) (keys : List PyId)
    (hnd : p.ids.Nodup) (hmem : ∀ k ∈ keys, k ∈ p.ids)
    (hlen : p.ids.length = p.n_p_units) :
    (keepList p.n_p_units (keys.map (posOf p.ids))).map (fun i => p.ids.getD i .nil)
      = p.ids.filter (fun x => x ∉ keys) := by
  unfold keepList
  have hcong : (List.range p.n_p_units).filter
        (fun i => decide (i ∉ keys.map (posOf p.ids)))
      = (List.range p.n_p_units).filter
        (fun i => decide (p.ids.getD i .nil ∉ keys)) := by
    apply List.filter_congr
    intro i hi
    have := mem_fused_iff p keys hnd hmem hlen i (List.mem_range.mp hi)
    simp [this]
  rw [hcong]
  have hcomp : (fun i => decide (p.ids.getD i .nil ∉ keys))
      = ((fun x => decide (x ∉ keys)) ∘ (fun i => p.ids.getD i .nil)) := rfl
  rw [hcomp, ← List.filter_map]
  rw [← hlen, map_getD_range]

theorem length_filter_split (l : List α) (pr : α → Bool) :
    (l.filter pr).length + (l.filter (fun a => !pr a)).length = l.length := by
  induction l with
  | nil => rfl
  | cons a t ih =>
    cases h : pr a <;> simp [List.filter_cons, h, ← ih] <;> omega

theorem keepList_length (u : Nat) (R : List Nat) (hnd : R.Nodup)
    (hb : ∀ r ∈ R, r < u) : (keepList u R).length = u - R.length := by
  have hperm : ((List.range u).filter (fun i => decide (i ∈ R))).Perm R := by
    rw [List.perm_ext_iff_of_nodup ((List.nodup_range u).filter _) hnd]
    intro a
    simp only [List.mem_filter, List.mem_range, decide_eq_true_eq]
    exact ⟨fun h => h.2, fun h => ⟨hb a h, h⟩⟩
  have hlenin := hperm.length_eq
  have hnot : (fun i => decide (i ∉ R)) = (fun i => !decide (i ∈ R)) := by
    funext i; simp
  have hsplit := length_filter_split (List.range u) (fun i => decide (i ∈ R))
  unfold keepList
  rw [hnot]
  rw [hlenin] at hsplit
  simp only [List.length_range] at hsplit
  omega

/-- C4: on a successful group operation with `g` distinct keys all present,
the result has `U − g + 1` units: the non-fused units keep their relative
order at the front (ids are the old ids with the fused keys filtered out,
and the parallel arrays are restricted to the remaining positions in
order), and the composite sits at the last index `U − g` with summed
`n_people`/`n_women`/`n_parents`, name joined with `", "`, and identifier
equal to the list of constituent keys. -/
theorem c4_group_shape (p : ProblemInfo) (keys : List PyId) (q : ProblemInfo)
    (hwf : p.wellFormed) (hnd : p.ids.Nodup) (hknd : keys.Nodup)
    (hmem : ∀ k ∈ keys, k ∈ p.ids)
    (hfr : ∀ t ∈ p.force, t.1 < p.n_p_units)
    (hrr : ∀ t ∈ p.reject, t.1 < p.n_p_units)
    (hok : make_group keys p = .ok q) :
    q.n_p_units = p.n_p_units - keys.length + 1 ∧
    q.ids = p.ids.filter (fun x => x ∉ keys) ++ [pyList keys] ∧
    (p.ids.filter (fun x => x ∉ keys)).length = p.n_p_units - keys.length ∧
    q.names = (keepList p.n_p_units (keys.map (posOf p.ids))).map
        (fun i => p.names.getD i "")
      ++ [joinStrs ", " (keys.map (fun k => p.names.getD (posOf p.ids k) ""))] ∧
    q.n_people = (keepList p.n_p_units (keys.map (posOf p.ids))).map
        (fun i => vecGet p.n_people i)
      ++ [(keys.map (fun k => vecGet p.n_people (posOf p.ids k))).sum] ∧
    q.n_women = (keepList p.n_p_units (keys.map (posOf p.ids))).map
        (fun i => vecGet p.n_women i)
      ++ [(keys.map (fun k => vecGet p.n_women (posOf p.ids k))).sum] ∧
    q.n_parents = (keepList p.n_p_units (keys.map (posOf p.ids))).map
        (fun i => vecGet p.n_parents i)
      ++ [(keys.map (fun k => vecGet p.n_parents (posOf p.ids k))).sum] := by
  have hfnd : (keys.map (posOf p.ids)).Nodup :=
    hknd.map_on (fun x hx y hy he => posOf_inj p.ids (hmem x hx) (hmem y hy) he)
  have hfb : ∀ r ∈ keys.map (posOf p.ids), r < p.n_p_units := by
    intro r hr
    obtain ⟨k, hk, he⟩ := List.mem_map.mp hr
    exact he ▸ (hwf.2.1 ▸ (posOf_spec p.ids k (hmem k hk)).1)
  have hmg := make_group_eq p keys hwf hnd hknd hmem hfr hrr
  rw [hok] at hmg
  have hq : q = groupResult p keys := Except.ok.inj hmg
  subst hq
  refine ⟨?_, ?_, ?_, ?_, ?_, ?_, ?_⟩
  · show p.n_p_units - (keys.map (posOf p.ids)).length + 1 = _
    rw [List.length_map]
  · show _ ++ [pyList ((keys.map (posOf p.ids)).map (fun i => p.ids.getD i .nil))] = _
    rw [keptMap_ids p keys hnd hmem hwf.2.1, fusedMap_getD p keys hmem]
  · rw [← keptMap_ids p keys hnd hmem hwf.2.1, List.length_map,
      keepList_length p.n_p_units _ hfnd hfb, List.length_map]
  · show _ ++ [joinStrs ", " ((keys.map (posOf p.ids)).map (fun i => p.names.getD i ""))] = _
    rw [List.map_map]
    rfl
  · show _ ++ [((keys.map (posOf p.ids)).map (fun i => vecGet p.n_people i)).sum] = _
    rw [List.map_map]
    rfl
  · show _ ++ [((keys.map (posOf p.ids)).map (fun i => vecGet p.n_women i)).sum] = _
    rw [List.map_map]
    rfl
  · show _ ++ [((keys.map (posOf p.ids)).map (fun i => vecGet p.n_parents i)).sum] = _
    rw [List.map_map]
    rfl

theorem c4_group_shape_witness :
    (groupResult cGroupPI [PyId.str "a", PyId.str "b"]).n_p_units
        = cGroupPI.n_p_units - 2 + 1 ∧
    (groupResult cGroupPI [PyId.str "a", PyId.str "b"]).ids
        = cGroupPI.ids.filter (fun x => x ∉ [PyId.str "a", PyId.str "b"])
          ++ [pyList [PyId.str "a", PyId.str "b"]] := by
  have h := c4_group_shape cGroupPI [PyId.str "a", PyId.str "b"]
    (groupResult cGroupPI [PyId.str "a", PyId.str "b"])
    (by decide) (by decide) (by decide) (by decide) (by decide) (by decide)
    (by decide)
  exact ⟨h.1, h.2.1⟩

theorem posOf_append_last (xs : List PyId) (y : PyId) (hy : y ∉ xs) :
    posOf (xs ++ [y]) y = xs.length := by
  unfold posOf
  rw [List.findIdx_eq_findIdx?]
  rw [findIdx?_append_cons _ _ _ _
    (fun x hx => by
      simp only [decide_eq_false_iff_not]
      intro he
      exact hy (he ▸ hx))
    (by simp)]

theorem keepList_succ_self (L : Nat) : keepList (L + 1) [L] = List.range L := by
  unfold keepList
  rw [List.range_succ, List.filter_append]
  have h1 : (List.range L).filter (fun i => decide (i ∉ [L])) = List.range L := by
    apply List.filter_eq_self.mpr
    intro a ha
    have := List.mem_range.mp ha
    simp only [List.mem_singleton, decide_eq_true_eq]
    omega
  have h2 : [L].filter (fun i => decide (i ∉ [L])) = [] := by simp
  rw [h1, h2, List.append_nil]

theorem findIdx_range_eq_self (L i : Nat) (hi : i < L) :
    (List.range L).findIdx (fun x => x = i) = i := by
  have h0 : L = i + (L - i - 1) + 1 := by omega
  rw [h0, List.range_succ, List.range_add]
  have hsplit : (List.range i ++ (List.range (L - i - 1)).map (fun j => i + j))
        ++ [i + (L - i - 1)]
      = List.range i ++ ((List.range (L - i - 1)).map (fun j => i + j)
        ++ [i + (L - i - 1)]) := by
    rw [List.append_assoc]
  by_cases hz : L - i - 1 = 0
  · rw [hz]
    simp only [List.range_zero, List.map_nil, List.append_nil, Nat.add_zero]
    rw [List.findIdx_eq_findIdx?]
    rw [findIdx?_append_cons _ _ _ _
      (fun x hx => by
        have := List.mem_range.mp hx
        simp only [decide_eq_false_iff_not]
        omega)
      (by simp)]
    simp
  · have h1 : L - i - 1 = (L - i - 2) + 1 := by omega
    rw [h1, List.range_succ_eq_map]
    simp only [List.map_cons, Nat.add_zero, List.map_map]
    rw [List.append_assoc]
    simp only [List.cons_append]
    rw [List.findIdx_eq_findIdx?]
    rw [findIdx?_append_cons _ _ _ _
      (fun x hx => by
        have := List.mem_range.mp hx
        simp only [decide_eq_false_iff_not]
        omega)
      (by simp)]
    simp

theorem specRemap_fst_lt (p : ProblemInfo) (keys : List PyId)
    (_hnd : p.ids.Nodup) (hknd : keys.Nodup)
    (hmem : ∀ k ∈ keys, k ∈ p.ids) (hlen : p.ids.length = p.n_p_units)
    (s : Triple) (hs : s.1 < p.n_p_units) :
    (specRemap p keys s).1 < p.n_p_units - keys.length + 1 := by
  have hfnd : (keys.map (posOf p.ids)).Nodup :=
    hknd.map_on (fun x hx y hy he => posOf_inj p.ids (hmem x hx) (hmem y hy) he)
  have hfb : ∀ r ∈ keys.map (posOf p.ids), r < p.n_p_units := by
    intro r hr
    obtain ⟨k, hk, he⟩ := List.mem_map.mp hr
    exact he ▸ (hlen ▸ (posOf_spec p.ids k (hmem k hk)).1)
  unfold specRemap
  by_cases hin : s.1 ∈ keys.map (posOf p.ids)
  · rw [if_pos hin]
    simp only []
    omega
  · rw [if_neg hin]
    simp only []
    have hkeep : s.1 ∈ keepList p.n_p_units (keys.map (posOf p.ids)) := by
      refine List.mem_filter.mpr ⟨List.mem_range.mpr hs, ?_⟩
      simp [hin]
    have hlt := List.findIdx_lt_length_of_exists
      (p := fun x => decide (x = s.1)) ⟨s.1, hkeep, by simp⟩
    rw [keepList_length p.n_p_units _ hfnd hfb, List.length_map] at hlt
    omega

/-- C9 amended: regrouping the composite of `G` right after grouping `G`
rebuilds the same `ProblemInfo` except for `ids`, where the composite's
identifier `[k1, …, kg]` is replaced by the singleton `[[k1, …, kg]]`
(Python wraps the popped identifier in a fresh list), so the second step is
not a no-op. -/
theorem c9_regroup_only_ids (p : ProblemInfo) (keys : List PyId) (q : ProblemInfo)
    (hwf : p.wellFormed) (hnd : p.ids.Nodup) (hknd : keys.Nodup)
    (hmem : ∀ k ∈ keys, k ∈ p.ids)
    (hfr : ∀ t ∈ p.force, t.1 < p.n_p_units)
    (hrr : ∀ t ∈ p.reject, t.1 < p.n_p_units)
    (hnotin : pyList keys ∉ p.ids)
    (hok : make_group keys p = .ok q) :
    make_group [pyList keys] q
      = .ok { q with ids := q.ids.dropLast ++ [pyList [pyList keys]] } := by
  have hfnd : (keys.map (posOf p.ids)).Nodup :=
    hknd.map_on (fun x hx y hy he => posOf_inj p.ids (hmem x hx) (hmem y hy) he)
  have hfb : ∀ r ∈ keys.map (posOf p.ids), r < p.n_p_units := by
    intro r hr
    obtain ⟨k, hk, he⟩ := List.mem_map.mp hr
    exact he ▸ (hwf.2.1 ▸ (posOf_spec p.ids k (hmem k hk)).1)
  have hkl : (keepList p.n_p_units (keys.map (posOf p.ids))).length
      = p.n_p_units - keys.length := by
    rw [keepList_length _ _ hfnd hfb, List.length_map]
  have hmg := make_group_eq p keys hwf hnd hknd hmem hfr hrr
  rw [hok] at hmg
  have hq : q = groupResult p keys := Except.ok.inj hmg
  have hqids : q.ids
      = (keepList p.n_p_units (keys.map (posOf p.ids))).map
          (fun i => p.ids.getD i .nil) ++ [pyList keys] := by
    rw [hq]
    show _ ++ [pyList ((keys.map (posOf p.ids)).map (fun i => p.ids.getD i .nil))] = _
    rw [fusedMap_getD p keys hmem]
  have hkidfil : (keepList p.n_p_units (keys.map (posOf p.ids))).map
      (fun i => p.ids.getD i .nil) = p.ids.filter (fun x => x ∉ keys) :=
    keptMap_ids p keys hnd hmem hwf.2.1
  have hkidlen : ((keepList p.n_p_units (keys.map (posOf p.ids))).map
      (fun i => p.ids.getD i .nil)).length = p.n_p_units - keys.length := by
    rw [List.length_map, hkl]
  have hcnot : pyList keys ∉ (keepList p.n_p_units (keys.map (posOf p.ids))).map
      (fun i => p.ids.getD i .nil) := by
    rw [hkidfil]
    intro hmem2
    exact hnotin (List.mem_filter.mp hmem2).1
  have hqnp : q.n_p_units = p.n_p_units - keys.length + 1 := by
    rw [hq]
    show p.n_p_units - (keys.map (posOf p.ids)).length + 1 = _
    rw [List.length_map]
  have hqnames : q.names
      = (keepList p.n_p_units (keys.map (posOf p.ids))).map
          (fun i => p.names.getD i "")
        ++ [joinStrs ", " ((keys.map (posOf p.ids)).map
          (fun i => p.names.getD i ""))] := by rw [hq]; rfl
  have hqpeople : q.n_people
      = (keepList p.n_p_units (keys.map (posOf p.ids))).map
          (fun i => vecGet p.n_people i)
        ++ [((keys.map (posOf p.ids)).map (fun i => vecGet p.n_people i)).sum] := by
    rw [hq]; rfl
  have hqwomen : q.n_women
      = (keepList p.n_p_units (keys.map (posOf p.ids))).map
          (fun i => vecGet p.n_women i)
        ++ [((keys.map (posOf p.ids)).map (fun i => vecGet p.n_women i)).sum] := by
    rw [hq]; rfl
  have hqparents : q.n_parents
      = (keepList p.n_p_units (keys.map (posOf p.ids))).map
          (fun i => vecGet p.n_parents i)
        ++ [((keys.map (posOf p.ids)).map (fun i => vecGet p.n_parents i)).sum] := by
    rw [hq]; rfl
  have hqreject : q.reject = pySetList (p.reject.map (specRemap p keys)) := by
    rw [hq]; rfl
  have hqforce : q.force = (pySetList (p.force.map (specRemap p keys))).filter
      (fun t => t ∉ pySetList (p.reject.map (specRemap p keys))) := by
    rw [hq]; rfl
  have hrnd : q.reject.Nodup := by rw [hqreject]; exact pySetList_nodup _
  have hfndq : q.force.Nodup := by rw [hqforce]; exact (pySetList_nodup _).filter _
  have hfr2 : ∀ t ∈ q.force, t.1 < q.n_p_units := by
    intro t ht
    rw [hqforce] at ht
    have ht2 := (List.mem_filter.mp ht).1
    rw [mem_pySetList] at ht2
    obtain ⟨s, hs, he⟩ := List.mem_map.mp ht2
    rw [hqnp, ← he]
    exact specRemap_fst_lt p keys hnd hknd hmem hwf.2.1 s (hfr s hs)
  have hrr2 : ∀ t ∈ q.reject, t.1 < q.n_p_units := by
    intro t ht
    rw [hqreject] at ht
    rw [mem_pySetList] at ht
    obtain ⟨s, hs, he⟩ := List.mem_map.mp ht
    rw [hqnp, ← he]
    exact specRemap_fst_lt p keys hnd hknd hmem hwf.2.1 s (hrr s hs)
  have hwf2 : q.wellFormed := by
    refine ⟨?_, ?_, ?_, ?_, ?_⟩
    · rw [hqnames, hqnp, List.length_append, List.length_map, hkl]; rfl
    · rw [hqids, hqnp, List.length_append, hkidlen]; rfl
    · rw [hqpeople, hqnp, List.length_append, List.length_map, hkl]; rfl
    · rw [hqwomen, hqnp, List.length_append, List.length_map, hkl]; rfl
    · rw [hqparents, hqnp, List.length_append, List.length_map, hkl]; rfl
  have hnd2 : q.ids.Nodup := by
    rw [hqids]
    rw [List.nodup_append]
    refine ⟨?_, List.nodup_singleton _, ?_⟩
    · rw [hkidfil]
      exact List.Nodup.sublist (List.filter_sublist p.ids) hnd
    · intro x hx hx2
      rw [List.mem_singleton] at hx2
      exact hcnot (hx2 ▸ hx)
  have hmem2 : ∀ k ∈ [pyList keys], k ∈ q.ids := by
    intro k hk
    rw [List.mem_singleton] at hk
    rw [hk, hqids]
    exact List.mem_append_right _ (by simp)
  rw [make_group_eq q [pyList keys] hwf2 hnd2 (List.nodup_singleton _) hmem2 hfr2 hrr2]
  refine congrArg Except.ok ?_
  have hposc : posOf q.ids (pyList keys) = p.n_p_units - keys.length := by
    rw [hqids, posOf_append_last _ _ hcnot, hkidlen]
  have hfused2 : ([pyList keys].map (posOf q.ids)) = [p.n_p_units - keys.length] := by
    simp [hposc]
  have hkeep2 : keepList q.n_p_units [p.n_p_units - keys.length]
      = List.range (p.n_p_units - keys.length) := by
    rw [hqnp, keepList_succ_self]
  have hgetq : ∀ {β : Type} (f0 kv : List β) (cv : β) (d : β),
      kv.length = p.n_p_units - keys.length → f0 = kv ++ [cv] →
      ((List.range (p.n_p_units - keys.length)).map (fun i => f0.getD i d) = kv ∧
       f0.getD (p.n_p_units - keys.length) d = cv) := by
    intro β f0 kv cv d hl hf
    subst hf
    constructor
    · have : ∀ i ∈ List.range (p.n_p_units - keys.length),
          (kv ++ [cv]).getD i d = kv.getD i d := by
        intro i hi
        exact List.getD_append kv [cv] d i (hl ▸ List.mem_range.mp hi)
      rw [List.map_congr_left this, ← hl, map_getD_range]
    · rw [← hl]
      exact getD_append_cons kv cv [] d
  have hremapid : ∀ (t : Triple), t.1 < q.n_p_units →
      specRemap q [pyList keys] t = t := by
    intro t htb
    obtain ⟨a, b, c⟩ := t
    unfold specRemap
    rw [hfused2]
    by_cases ha : a = p.n_p_units - keys.length
    · rw [if_pos (by simp [ha])]
      simp only [List.length_singleton]
      rw [hqnp] at htb ⊢
      simp [ha]
    · rw [if_neg (by simp [ha])]
      rw [hkeep2]
      have halt : a < p.n_p_units - keys.length := by
        rw [hqnp] at htb
        simp only [] at htb
        omega
      rw [findIdx_range_eq_self _ a halt]
  have hmapr : q.reject.map (specRemap q [pyList keys]) = q.reject := by
    conv_rhs => rw [← List.map_id q.reject]
    exact List.map_congr_left (fun t ht => hremapid t (hrr2 t ht))
  have hmapf : q.force.map (specRemap q [pyList keys]) = q.force := by
    conv_rhs => rw [← List.map_id q.force]
    exact List.map_congr_left (fun t ht => hremapid t (hfr2 t ht))
  show ProblemInfo.mk _ _ _ _ _ _ _ _ _ _ _ _ _ _ _ = _
  simp only [ProblemInfo.mk.injEq]
  obtain ⟨hg1, hg2⟩ := hgetq q.ids
    ((keepList p.n_p_units (keys.map (posOf p.ids))).map (fun i => p.ids.getD i .nil))
    (pyList keys) .nil hkidlen hqids
  obtain ⟨hn1, hn2⟩ := hgetq q.names
    ((keepList p.n_p_units (keys.map (posOf p.ids))).map (fun i => p.names.getD i ""))
    (joinStrs ", " ((keys.map (posOf p.ids)).map (fun i => p.names.getD i ""))) ""
    (by rw [List.length_map, hkl]) hqnames
  obtain ⟨hp1, hp2⟩ := hgetq q.n_people
    ((keepList p.n_p_units (keys.map (posOf p.ids))).map (fun i => vecGet p.n_people i))
    (((keys.map (posOf p.ids)).map (fun i => vecGet p.n_people i)).sum) 0
    (by rw [List.length_map, hkl]) hqpeople
  obtain ⟨hw1, hw2⟩ := hgetq q.n_women
    ((keepList p.n_p_units (keys.map (posOf p.ids))).map (fun i => vecGet p.n_women i))
    (((keys.map (posOf p.ids)).map (fun i => vecGet p.n_women i)).sum) 0
    (by rw [List.length_map, hkl]) hqwomen
  obtain ⟨hx1, hx2⟩ := hgetq q.n_parents
    ((keepList p.n_p_units (keys.map (posOf p.ids))).map (fun i => vecGet p.n_parents i))
    (((keys.map (posOf p.ids)).map (fun i => vecGet p.n_parents i)).sum) 0
    (by rw [List.length_map, hkl]) hqparents
  refine ⟨?_, trivial, trivial, trivial, ?_, ?_, trivial, trivial, trivial, trivial, ?_, ?_, ?_, ?_, ?_⟩
  · rw [hfused2, hqnp]
    simp only [List.length_singleton]
    omega
  · rw [hfused2, hkeep2]
    simp only [List.map_cons, List.map_nil]
    rw [hg1, hg2, hqids, List.dropLast_concat]
  · rw [hfused2, hkeep2]
    simp only [List.map_cons, List.map_nil]
    rw [hn1, hn2, hqnames]
    rfl
  · rw [hfused2, hkeep2]
    simp only [List.map_cons, List.map_nil, vecGet]
    rw [hp1, hp2, hqpeople]
    simp
  · rw [hfused2, hkeep2]
    simp only [List.map_cons, List.map_nil, vecGet]
    rw [hw1, hw2, hqwomen]
    simp
  · rw [hfused2, hkeep2]
    simp only [List.map_cons, List.map_nil, vecGet]
    rw [hx1, hx2, hqparents]
    simp
  · rw [hmapr, pySetList_eq_self hrnd]
  · rw [hmapr, hmapf, pySetList_eq_self hrnd, pySetList_eq_self hfndq]
    apply List.filter_eq_self.mpr
    intro t ht
    rw [hqforce] at ht
    have := (List.mem_filter.mp ht).2
    rw [← hqreject] at this
    exact this

/-- Result of grouping `{a, b}` in `cGroupPI`: the composite's identifier
is the list `[a, b]`. -/
def cGroupQ : ProblemInfo :=
  ⟨2, 1, 1, ["T"], [.str "c", pyList [.str "a", .str "b"]], ["C", "A, B"], ["d"],
   [[2]], [[0]], [[0]], [1, 2], [1, 1], [1, 0], [(1, 0, 0), (0, 0, 0)], []⟩

/-- Result of then grouping the singleton `{[a, b]}`: identical except
that the composite's identifier is now the nested list `[[a, b]]`. -/
def cGroupR : ProblemInfo :=
  ⟨2, 1, 1, ["T"], [.str "c", pyList [pyList [.str "a", .str "b"]]], ["C", "A, B"],
   ["d"], [[2]], [[0]], [[0]], [1, 2], [1, 1], [1, 0], [(1, 0, 0), (0, 0, 0)], []⟩

/-- C9 counterexample: grouping `{a, b}` and then grouping the singleton
containing the composite's identifier is not a no-op — the second step
returns a `ProblemInfo` whose `ids` field wraps the composite identifier
in one more list layer, so the two results differ. -/
theorem c9_counterexample :
    make_group [PyId.str "a", PyId.str "b"] cGroupPI = .ok cGroupQ ∧
    make_group [pyList [PyId.str "a", PyId.str "b"]] cGroupQ = .ok cGroupR ∧
    cGroupR ≠ cGroupQ ∧ cGroupR.ids ≠ cGroupQ.ids := by
  refine ⟨?_, ?_, by decide, by decide⟩
  · decide
  · decide

theorem c9_regroup_only_ids_witness :
    make_group [pyList [PyId.str "a", PyId.str "b"]] cGroupQ
      = .ok { cGroupQ with
              ids := cGroupQ.ids.dropLast
                ++ [pyList [pyList [PyId.str "a", PyId.str "b"]]] } :=
  c9_regroup_only_ids cGroupPI [PyId.str "a", PyId.str "b"] cGroupQ
    (by decide) (by decide) (by decide) (by decide) (by decide) (by decide)
    (by decide) (by decide)

/-!
Reference-level embedding of `make_group`, for the frame property (C10).

The value-level `make_group` above cannot express which Python objects the
function mutates, so the mutable list/array objects are put on an explicit
heap: a `Heap` is the sequence of allocated objects, addresses are
positions, allocation appends, and a `ProblemInfoRef` holds addresses
instead of values.  Every slice (`[:]`), `np.copy`, `list(...)` and
rebinding in the source allocates a fresh object; every `pop`, item
assignment and `append` writes through the address it was called on.
Element values inside a list are modelled as immutable (the source never
mutates an element in place), so only list/array objects live on the
heap. -/
inductive PyObj where
  | strList (xs : List String)
  | idList (xs : List PyId)
  | tripList (xs : List Triple)
  | intList (xs : List Int)
  | intMat (xs : List (List Int))
deriving Repr, DecidableEq

/-- The allocated objects, addressed by position; the next fresh address
is the length. -/
abbrev Heap := List PyObj

def Heap.read (h : Heap) (r : Nat) : PyObj := h.getD r (.intList [])

def Heap.write (h : Heap) (r : Nat) (o : PyObj) : Heap := h.set r o

def Heap.alloc (h : Heap) (o : PyObj) : Nat × Heap := (h.length, h ++ [o])

def PyObj.asStrList : PyObj → List String
  | .strList xs => xs
  | _ => []

def PyObj.asIdList : PyObj → List PyId
  | .idList xs => xs
  | _ => []

def PyObj.asTripList : PyObj → List Triple
  | .tripList xs => xs
  | _ => []

def PyObj.asIntList : PyObj → List Int
  | .intList xs => xs
  | _ => []

def PyObj.asIntMat : PyObj → List (List Int)
  | .intMat xs => xs
  | _ => []

/-- A `ProblemInfo` whose list/array fields are heap addresses. -/
structure ProblemInfoRef where
  n_p_units : Nat
  n_days : Nat
  n_tasks : Nat
  tasks : Nat
  ids : Nat
  names : Nat
  days : Nat
  people_per_task : Nat
  women_per_task : Nat
  parents_per_task : Nat
  n_people : Nat
  n_women : Nat
  n_parents : Nat
  reject : Nat
  force : Nat
deriving Repr, DecidableEq

/-- The scalar loop state of `make_group` in the reference-level model:
everything except the heap-resident working copies. -/
structure HLoop where
  h : Heap
  index_struct : List Nat
  indexes_of_group : List Nat
  people : Int
  women : Int
  parents : Int
  new_names : String
  new_ids : List PyId
  first_name : Bool
  n_p_units : Nat

/-- One iteration of the key loop, reading and popping through the
addresses of the five working copies. -/
def heapStep (rNames rIds rNp rNw rNpar : Nat) (st : HLoop) (id_ : PyId) :
    Except PyErr HLoop :=
  match indexE ((st.h.read rIds).asIdList) id_ with
  | .error e => .error e
  | .ok index =>
    .ok ⟨((((st.h.write rNames
            (.strList (((st.h.read rNames).asStrList).eraseIdx index))).write rIds
            (.idList (((st.h.read rIds).asIdList).eraseIdx index))).write rNp
            (.intList (((st.h.read rNp).asIntList).eraseIdx index))).write rNw
            (.intList (((st.h.read rNw).asIntList).eraseIdx index))).write rNpar
            (.intList (((st.h.read rNpar).asIntList).eraseIdx index)),
         st.index_struct.eraseIdx index,
         st.indexes_of_group ++ [st.index_struct.getD index 0],
         st.people + ((st.h.read rNp).asIntList).getD index 0,
         st.women + ((st.h.read rNw).asIntList).getD index 0,
         st.parents + ((st.h.read rNpar).asIntList).getD index 0,
         (if st.first_name then st.new_names else st.new_names ++ ", ")
           ++ ((st.h.read rNames).asStrList).getD index "",
         st.new_ids ++ [((st.h.read rIds).asIdList).getD index .nil],
         false, st.n_p_units - 1⟩

def heapLoop (rNames rIds rNp rNw rNpar : Nat) :
    HLoop → List PyId → Except PyErr HLoop
  | st, [] => .ok st
  | st, id_ :: rest =>
    match heapStep rNames rIds rNp rNw rNpar st id_ with
    | .error e => .error e
    | .ok st' => heapLoop rNames rIds rNp rNw rNpar st' rest

/-- The triple-rewrite loop `for i, triple in enumerate(...)`: reads the
original triples, writes the rewritten triple into slot `i` of the working
copy at `rref`. -/
def remapLoop (rref : Nat) (iog : List Nat) (gi : Nat) (istr : List Nat) :
    List Triple → Nat → Heap → Except PyErr Heap
  | [], _, h => .ok h
  | t :: rest, i, h =>
    match remapTriple iog gi istr t with
    | .error e => .error e
    | .ok t2 =>
      remapLoop rref iog gi istr rest (i + 1)
        (h.write rref (.tripList (((h.read rref).asTripList).set i t2)))

/-- Reference-level embedding of `make_group(list_of_ids, prb_info)`:
identical control flow to the value-level `make_group`, with every object
creation an allocation and every mutation a write. -/
def make_group_heap (list_of_ids : List PyId) (pr : ProblemInfoRef) (h0 : Heap) :
    Except PyErr (ProblemInfoRef × Heap) :=
  let (rNames, h1) := h0.alloc (.strList (h0.read pr.names).asStrList)
  let (rIds, h2) := h1.alloc (.idList (h0.read pr.ids).asIdList)
  let (rForce, h3) := h2.alloc (.tripList (h0.read pr.force).asTripList)
  let (rReject, h4) := h3.alloc (.tripList (h0.read pr.reject).asTripList)
  let (rNp, h5) := h4.alloc (.intList (h0.read pr.n_people).asIntList)
  let (rNw, h6) := h5.alloc (.intList (h0.read pr.n_women).asIntList)
  let (rNpar, h7) := h6.alloc (.intList (h0.read pr.n_parents).asIntList)
  let group_index := pr.n_p_units - list_of_ids.length
  match heapLoop rNames rIds rNp rNw rNpar
      ⟨h7, List.range pr.n_p_units, [], 0, 0, 0, "", [], true, pr.n_p_units⟩
      list_of_ids with
  | .error e => .error e
  | .ok st =>
    match remapLoop rForce st.indexes_of_group group_index st.index_struct
        ((st.h.read pr.force).asTripList) 0 st.h with
    | .error e => .error e
    | .ok h8 =>
      match remapLoop rReject st.indexes_of_group group_index st.index_struct
          ((h8.read pr.reject).asTripList) 0 h8 with
      | .error e => .error e
      | .ok h9 =>
        let (rForce2, h10) := h9.alloc
          (.tripList (pySetList ((h9.read rForce).asTripList)))
        let (rReject2, h11) := h10.alloc
          (.tripList (pySetList ((h10.read rReject).asTripList)))
        let (rForce3, h12) := h11.alloc
          (.tripList (((h11.read rForce2).asTripList).filter
            (fun t => t ∉ (h11.read rReject2).asTripList)))
        let (rNp2, h13) := h12.alloc
          (.intList ((h12.read rNp).asIntList ++ [st.people]))
        let (rNw2, h14) := h13.alloc
          (.intList ((h13.read rNw).asIntList ++ [st.women]))
        let (rNpar2, h15) := h14.alloc
          (.intList ((h14.read rNpar).asIntList ++ [st.parents]))
        let h16 := h15.write rIds
          (.idList ((h15.read rIds).asIdList ++ [pyList st.new_ids]))
        let h17 := h16.write rNames
          (.strList ((h16.read rNames).asStrList ++ [st.new_names]))
        let (rDays2, h18) := h17.alloc (.strList (h17.read pr.days).asStrList)
        let (rP2, h19) := h18.alloc (.intMat (h18.read pr.people_per_task).asIntMat)
        let (rW2, h20) := h19.alloc (.intMat (h19.read pr.women_per_task).asIntMat)
        let (rE2, h21) := h20.alloc (.intMat (h20.read pr.parents_per_task).asIntMat)
        .ok (⟨st.n_p_units + 1, pr.n_days, pr.n_tasks, pr.tasks, rIds, rNames,
              rDays2, rP2, rW2, rE2, rNp2, rNw2, rNpar2, rReject2, rForce3⟩, h21)

theorem Heap.read_write_ne (h : Heap) (r : Nat) (o : PyObj) (a : Nat)
    (hne : r ≠ a) : (h.write r o).read a = h.read a := by
  unfold Heap.read Heap.write
  simp [List.getD, List.getElem?_set_ne hne]

theorem Heap.length_write (h : Heap) (r : Nat) (o : PyObj) :
    (h.write r o).length = h.length := List.length_set h r o

theorem Heap.read_append (h : Heap) (os : List PyObj) (a : Nat)
    (ha : a < h.length) : (h ++ os).read a = h.read a := by
  unfold Heap.read
  exact List.getD_append h os _ a ha

theorem heapLoop_frame (r1 r2 r3 r4 r5 : Nat) :
    ∀ (keys : List PyId) (st st' : HLoop),
      heapLoop r1 r2 r3 r4 r5 st keys = .ok st' →
      st'.h.length = st.h.length ∧
      ∀ a, a ≠ r1 → a ≠ r2 → a ≠ r3 → a ≠ r4 → a ≠ r5 →
        st'.h.read a = st.h.read a := by
  intro keys
  induction keys with
  | nil =>
    intro st st' hl
    cases hl
    exact ⟨rfl, fun a _ _ _ _ _ => rfl⟩
  | cons k rest ih =>
    intro st st' hl
    unfold heapLoop heapStep at hl
    cases hidx : indexE ((st.h.read r2).asIdList) k with
    | error e => simp only [hidx] at hl; cases hl
    | ok index =>
      simp only [hidx] at hl
      obtain ⟨hlen, hread⟩ := ih _ _ hl
      constructor
      · rw [hlen]
        simp [Heap.length_write]
      · intro a h1 h2 h3 h4 h5
        rw [hread a h1 h2 h3 h4 h5]
        rw [Heap.read_write_ne _ _ _ _ (fun he => h5 he.symm)]
        rw [Heap.read_write_ne _ _ _ _ (fun he => h4 he.symm)]
        rw [Heap.read_write_ne _ _ _ _ (fun he => h3 he.symm)]
        rw [Heap.read_write_ne _ _ _ _ (fun he => h2 he.symm)]
        rw [Heap.read_write_ne _ _ _ _ (fun he => h1 he.symm)]

theorem remapLoop_frame (rref : Nat) (iog : List Nat) (gi : Nat) (istr : List Nat) :
    ∀ (l : List Triple) (i : Nat) (h h' : Heap),
      remapLoop rref iog gi istr l i h = .ok h' →
      h'.length = h.length ∧ ∀ a, a ≠ rref → h'.read a = h.read a := by
  intro l
  induction l with
  | nil =>
    intro i h h' hl
    cases hl
    exact ⟨rfl, fun a _ => rfl⟩
  | cons t rest ih =>
    intro i h h' hl
    unfold remapLoop at hl
    cases hr : remapTriple iog gi istr t with
    | error e => rw [hr] at hl; cases hl
    | ok t2 =>
      rw [hr] at hl
      obtain ⟨hlen, hread⟩ := ih _ _ _ hl
      constructor
      · rw [hlen, Heap.length_write]
      · intro a ha
        rw [hread a ha, Heap.read_write_ne _ _ _ _ (fun he => ha he.symm)]

set_option maxHeartbeats 2000000 in
/-- C10: `make_group` never mutates its input.  In the reference-level
model, every object reachable from the input `ProblemInfoRef` lives at an
address below the initial heap bound, all heap writes target freshly
allocated copies, and the returned record's list/array fields (other than
`tasks`, which the source passes through unchanged) are fresh
addresses. -/
theorem c10_make_group_no_mutation (keys : List PyId) (pr : ProblemInfoRef)
    (h0 : Heap) :
    ∀ (qr : ProblemInfoRef) (hf : Heap),
      make_group_heap keys pr h0 = .ok (qr, hf) →
      (∀ a < h0.length, hf.read a = h0.read a) ∧
      qr.tasks = pr.tasks ∧
      h0.length ≤ qr.ids ∧ h0.length ≤ qr.names ∧ h0.length ≤ qr.days ∧
      h0.length ≤ qr.people_per_task ∧ h0.length ≤ qr.women_per_task ∧
      h0.length ≤ qr.parents_per_task ∧ h0.length ≤ qr.n_people ∧
      h0.length ≤ qr.n_women ∧ h0.length ≤ qr.n_parents ∧
      h0.length ≤ qr.reject ∧ h0.length ≤ qr.force := by
  intro qr hf hmg
  unfold make_group_heap at hmg
  simp only [Heap.alloc] at hmg
  split at hmg
  · cases hmg
  · rename_i st heq
    split at hmg
    · cases hmg
    · rename_i h8 heq2
      split at hmg
      · cases hmg
      · rename_i h9 heq3
        injection hmg with hp
        injection hp with hqr hhf
        subst hqr
        subst hhf
        obtain ⟨hLlen, hLread⟩ := heapLoop_frame _ _ _ _ _ keys _ st heq
        obtain ⟨hR1len, hR1read⟩ := remapLoop_frame _ _ _ _ _ _ _ h8 heq2
        obtain ⟨hR2len, hR2read⟩ := remapLoop_frame _ _ _ _ _ _ _ h9 heq3
        simp only [List.length_append, List.length_cons, List.length_nil] at hLlen
        have h8len : h8.length = h0.length + 7 := by omega
        have h9len : h9.length = h0.length + 7 := by omega
        refine ⟨?_, rfl, ?_⟩
        · intro a ha
          rw [Heap.read_append _ _ a (by
            simp [List.length_append, Heap.length_write, h9len]
            omega)]
          rw [Heap.read_append _ _ a (by
            simp [List.length_append, Heap.length_write, h9len]
            omega)]
          rw [Heap.read_append _ _ a (by
            simp [List.length_append, Heap.length_write, h9len]
            omega)]
          rw [Heap.read_append _ _ a (by
            simp [List.length_append, Heap.length_write, h9len]
            omega)]
          rw [Heap.read_write_ne _ _ _ a (by
            simp [List.length_append]
            omega)]
          rw [Heap.read_write_ne _ _ _ a (by
            simp [List.length_append]
            omega)]
          rw [Heap.read_append _ _ a (by
            simp [List.length_append, h9len]
            omega)]
          rw [Heap.read_append _ _ a (by
            simp [List.length_append, h9len]
            omega)]
          rw [Heap.read_append _ _ a (by
            simp [List.length_append, h9len]
            omega)]
          rw [Heap.read_append _ _ a (by
            simp [List.length_append, h9len]
            omega)]
          rw [Heap.read_append _ _ a (by
            simp [List.length_append, h9len]
            omega)]
          rw [Heap.read_append _ _ a (by simp [h9len]; omega)]
          rw [hR2read a (by simp [List.length_append]; omega)]
          rw [hR1read a (by simp [List.length_append]; omega)]
          rw [hLread a (by simp [List.length_append]; omega)
            (by simp [List.length_append]; omega)
            (by simp [List.length_append]; omega)
            (by simp [List.length_append]; omega)
            (by simp [List.length_append]; omega)]
          rw [Heap.read_append _ _ a (by simp [List.length_append]; omega)]
          rw [Heap.read_append _ _ a (by simp [List.length_append]; omega)]
          rw [Heap.read_append _ _ a (by simp [List.length_append]; omega)]
          rw [Heap.read_append _ _ a (by simp [List.length_append]; omega)]
          rw [Heap.read_append _ _ a (by simp [List.length_append]; omega)]
          rw [Heap.read_append _ _ a (by simp [List.length_append]; omega)]
          rw [Heap.read_append _ _ a ha]
        · refine ⟨?_, ?_, ?_, ?_, ?_, ?_, ?_, ?_, ?_, ?_, ?_⟩ <;>
            simp [List.length_append, Heap.length_write, h8len, h9len, hLlen] <;>
            omega

/-- Concrete single-unit heap for instantiating the frame theorem:
addresses 0–11 hold the input `ProblemInfo`'s objects. -/
def c10Heap : Heap :=
  [.strList ["T"], .idList [.str "a"], .strList ["A"], .strList ["d"],
   .intMat [[1]], .intMat [[0]], .intMat [[0]],
   .intList [1], .intList [0], .intList [0], .tripList [], .tripList []]

/-- The input record addressing `c10Heap`. -/
def c10Ref : ProblemInfoRef := ⟨1, 1, 1, 0, 1, 2, 3, 4, 5, 6, 7, 8, 9, 10, 11⟩

/-- The record returned when grouping `{a}` over `c10Heap`: every list
field points at a fresh address (≥ 12); `tasks` is shared. -/
def c10OutRef : ProblemInfoRef := ⟨1, 1, 1, 0, 13, 12, 25, 26, 27, 28, 22, 23, 24, 20, 21⟩

/-- The heap after the call: the input region 0–11 is untouched. -/
def c10OutHeap : Heap :=
  [.strList ["T"], .idList [.str "a"], .strList ["A"], .strList ["d"],
   .intMat [[1]], .intMat [[0]], .intMat [[0]],
   .intList [1], .intList [0], .intList [0], .tripList [], .tripList [],
   .strList ["A"], .idList [pyList [.str "a"]], .tripList [], .tripList [],
   .intList [], .intList [], .intList [], .tripList [], .tripList [],
   .tripList [], .intList [1], .intList [0], .intList [0], .strList ["d"],
   .intMat [[1]], .intMat [[0]], .intMat [[0]]]

theorem c10_make_group_no_mutation_witness :
    make_group_heap [PyId.str "a"] c10Ref c10Heap = .ok (c10OutRef, c10OutHeap) ∧
    ((1 : Nat) < c10Heap.length ∧ c10OutHeap.read 1 = c10Heap.read 1) ∧
    c10Heap.length ≤ c10OutRef.ids :=
  have h := c10_make_group_no_mutation [PyId.str "a"] c10Ref c10Heap
    c10OutRef c10OutHeap (by decide)
  ⟨by decide, ⟨by decide, h.1 1 (by decide)⟩, h.2.2.1⟩

/-!
Agreement of the two embeddings of `make_group`: running the
reference-level `make_group_heap` and reading the resulting record off the
final heap gives exactly what the value-level `make_group` computes on the
read-off input.
-/

/-- Read a `ProblemInfoRef`'s fields off a heap, producing the value-level
`ProblemInfo` it denotes. -/
def realize (pr : ProblemInfoRef) (h : Heap) : ProblemInfo :=
  ⟨pr.n_p_units, pr.n_days, pr.n_tasks,
   (h.read pr.tasks).asStrList, (h.read pr.ids).asIdList,
   (h.read pr.names).asStrList, (h.read pr.days).asStrList,
   (h.read pr.people_per_task).asIntMat, (h.read pr.women_per_task).asIntMat,
   (h.read pr.parents_per_task).asIntMat,
   (h.read pr.n_people).asIntList, (h.read pr.n_women).asIntList,
   (h.read pr.n_parents).asIntList,
   (h.read pr.reject).asTripList, (h.read pr.force).asTripList⟩

theorem Heap.read_write_eq (h : Heap) (r : Nat) (o : PyObj) (hr : r < h.length) :
    (h.write r o).read r = o := by
  unfold Heap.read Heap.write
  simp [List.getD, List.getElem?_set_self, hr]

theorem set_append_cons (xs : List α) (y : α) (zs : List α) (y2 : α) :
    (xs ++ y :: zs).set xs.length y2 = xs ++ y2 :: zs := by
  induction xs with
  | nil => rfl
  | cons a t ih => simp [List.set, ih]

/-- The five working-copy addresses are in bounds and pairwise
distinct. -/
def refsOk (r1 r2 r3 r4 r5 : Nat) (h : Heap) : Prop :=
  r1 < h.length ∧ r2 < h.length ∧ r3 < h.length ∧ r4 < h.length ∧
  r5 < h.length ∧
  r1 ≠ r2 ∧ r1 ≠ r3 ∧ r1 ≠ r4 ∧ r1 ≠ r5 ∧ r2 ≠ r3 ∧ r2 ≠ r4 ∧ r2 ≠ r5 ∧
  r3 ≠ r4 ∧ r3 ≠ r5 ∧ r4 ≠ r5

/-- A reference-level loop state denotes a value-level loop state: the
five heap cells hold the working copies and the scalar locals agree. -/
def relHG (r1 r2 r3 r4 r5 : Nat) (st : HLoop) (g : GState) : Prop :=
  (st.h.read r1).asStrList = g.names ∧
  (st.h.read r2).asIdList = g.ids ∧
  (st.h.read r3).asIntList = g.n_people ∧
  (st.h.read r4).asIntList = g.n_women ∧
  (st.h.read r5).asIntList = g.n_parents ∧
  st.index_struct = g.index_struct ∧
  st.indexes_of_group = g.indexes_of_group ∧
  st.people = g.people ∧ st.women = g.women ∧ st.parents = g.parents ∧
  st.new_names = g.new_names ∧ st.new_ids = g.new_ids ∧
  st.first_name = g.first_name ∧ st.n_p_units = g.n_p_units

theorem heapStep_sim (r1 r2 r3 r4 r5 : Nat) (st : HLoop) (g : GState) (k : PyId)
    (hrefs : refsOk r1 r2 r3 r4 r5 st.h) (hrel : relHG r1 r2 r3 r4 r5 st g) :
    match heapStep r1 r2 r3 r4 r5 st k, groupStep g k with
    | .ok st2, .ok g2 => relHG r1 r2 r3 r4 r5 st2 g2 ∧ st2.h.length = st.h.length
    | .error e, .error e2 => e = e2
    | _, _ => False := by
  obtain ⟨hb1, hb2, hb3, hb4, hb5, d12, d13, d14, d15, d23, d24, d25, d34, d35, d45⟩ :=
    hrefs
  obtain ⟨e1, e2, e3, e4, e5, e6, e7, e8, e9, e10, e11, e12, e13, e14⟩ := hrel
  unfold heapStep groupStep
  rw [e2]
  cases hidx : indexE g.ids k with
  | error e => exact rfl
  | ok index =>
    refine ⟨⟨?_, ?_, ?_, ?_, ?_, ?_, ?_, ?_, ?_, ?_, ?_, ?_, rfl, ?_⟩, ?_⟩
    · show ((((((st.h.write r1 _).write r2 _).write r3 _).write r4 _).write
          r5 _).read r1).asStrList = _
      rw [Heap.read_write_ne _ _ _ _ d15.symm, Heap.read_write_ne _ _ _ _ d14.symm,
        Heap.read_write_ne _ _ _ _ d13.symm, Heap.read_write_ne _ _ _ _ d12.symm,
        Heap.read_write_eq _ _ _ hb1]
      rw [e1]
      rfl
    · show ((((((st.h.write r1 _).write r2 _).write r3 _).write r4 _).write
          r5 _).read r2).asIdList = _
      rw [Heap.read_write_ne _ _ _ _ d25.symm, Heap.read_write_ne _ _ _ _ d24.symm,
        Heap.read_write_ne _ _ _ _ d23.symm,
        Heap.read_write_eq _ _ _ (by rw [Heap.length_write]; exact hb2)]
      rfl
    · show ((((((st.h.write r1 _).write r2 _).write r3 _).write r4 _).write
          r5 _).read r3).asIntList = _
      rw [Heap.read_write_ne _ _ _ _ d35.symm, Heap.read_write_ne _ _ _ _ d34.symm,
        Heap.read_write_eq _ _ _
          (by rw [Heap.length_write, Heap.length_write]; exact hb3)]
      rw [e3]
      rfl
    · show ((((((st.h.write r1 _).write r2 _).write r3 _).write r4 _).write
          r5 _).read r4).asIntList = _
      rw [Heap.read_write_ne _ _ _ _ d45.symm,
        Heap.read_write_eq _ _ _
          (by rw [Heap.length_write, Heap.length_write, Heap.length_write]
              exact hb4)]
      rw [e4]
      rfl
    · show ((((((st.h.write r1 _).write r2 _).write r3 _).write r4 _).write
          r5 _).read r5).asIntList = _
      rw [Heap.read_write_eq _ _ _
        (by rw [Heap.length_write, Heap.length_write, Heap.length_write,
              Heap.length_write]
            exact hb5)]
      rw [e5]
      rfl
    · show st.index_struct.eraseIdx index = _
      rw [e6]
    · show st.indexes_of_group ++ [st.index_struct.getD index 0] = _
      rw [e6, e7]
    · show st.people + (st.h.read r3).asIntList.getD index 0 = _
      rw [e3, e8]
      rfl
    · show st.women + (st.h.read r4).asIntList.getD index 0 = _
      rw [e4, e9]
      rfl
    · show st.parents + (st.h.read r5).asIntList.getD index 0 = _
      rw [e5, e10]
      rfl
    · show (if st.first_name then st.new_names else st.new_names ++ ", ")
          ++ (st.h.read r1).asStrList.getD index "" = _
      rw [e1, e11, e13]
    · show st.new_ids ++ [g.ids.getD index .nil] = _
      rw [e12]
    · show st.n_p_units - 1 = _
      rw [e14]
    · show (((((st.h.write r1 _).write r2 _).write r3 _).write r4 _).write
          r5 _).length = _
      simp [Heap.length_write]

theorem heapLoop_sim (r1 r2 r3 r4 r5 : Nat) :
    ∀ (keys : List PyId) (st : HLoop) (g : GState),
      refsOk r1 r2 r3 r4 r5 st.h → relHG r1 r2 r3 r4 r5 st g →
      match heapLoop r1 r2 r3 r4 r5 st keys, groupLoop g keys with
      | .ok st2, .ok g2 => relHG r1 r2 r3 r4 r5 st2 g2 ∧ st2.h.length = st.h.length
      | .error e, .error e2 => e = e2
      | _, _ => False := by
  intro keys
  induction keys with
  | nil =>
    intro st g hrefs hrel
    exact ⟨hrel, rfl⟩
  | cons k rest ih =>
    intro st g hrefs hrel
    have hstep := heapStep_sim r1 r2 r3 r4 r5 st g k hrefs hrel
    unfold heapLoop groupLoop
    cases hh : heapStep r1 r2 r3 r4 r5 st k with
    | error e =>
      cases hg : groupStep g k with
      | error e2 =>
        rw [hh, hg] at hstep
        exact hstep
      | ok g2 =>
        rw [hh, hg] at hstep
        exact hstep.elim
    | ok st2 =>
      cases hg : groupStep g k with
      | error e2 =>
        rw [hh, hg] at hstep
        exact hstep.elim
      | ok g2 =>
        rw [hh, hg] at hstep
        obtain ⟨hrel2, hlen2⟩ := hstep
        have hrefs2 : refsOk r1 r2 r3 r4 r5 st2.h := by
          obtain ⟨hb1, hb2, hb3, hb4, hb5, rest3⟩ := hrefs
          exact ⟨hlen2 ▸ hb1, hlen2 ▸ hb2, hlen2 ▸ hb3, hlen2 ▸ hb4,
            hlen2 ▸ hb5, rest3⟩
        have hrec := ih st2 g2 hrefs2 hrel2
        simp only [hlen2] at hrec
        exact hrec

theorem remapLoop_sim (rref : Nat) (iog : List Nat) (gi : Nat) (istr : List Nat) :
    ∀ (ts : List Triple) (i : Nat) (acc : List Triple) (h : Heap),
      rref < h.length → acc.length = i →
      h.read rref = .tripList (acc ++ ts) →
      match remapLoop rref iog gi istr ts i h,
            mapExcept (remapTriple iog gi istr) ts with
      | .ok h2, .ok ts2 =>
          h2.read rref = .tripList (acc ++ ts2) ∧ h2.length = h.length ∧
          ∀ a, a ≠ rref → h2.read a = h.read a
      | .error e, .error e2 => e = e2
      | _, _ => False := by
  intro ts
  induction ts with
  | nil =>
    intro i acc h hr hi hread
    exact ⟨hread, rfl, fun a _ => rfl⟩
  | cons t rest ih =>
    intro i acc h hr hi hread
    cases hrt : remapTriple iog gi istr t with
    | error e =>
      have hL : remapLoop rref iog gi istr (t :: rest) i h = .error e := by
        simp only [remapLoop, hrt]
      have hM : mapExcept (remapTriple iog gi istr) (t :: rest) = .error e := by
        simp only [mapExcept, hrt]
      rw [hL, hM]
    | ok t2 =>
      have hL : remapLoop rref iog gi istr (t :: rest) i h =
          remapLoop rref iog gi istr rest (i + 1)
            (h.write rref (.tripList (((h.read rref).asTripList).set i t2))) := by
        simp only [remapLoop, hrt]
      have hM : mapExcept (remapTriple iog gi istr) (t :: rest) =
          (match mapExcept (remapTriple iog gi istr) rest with
           | .error e => .error e
           | .ok bs => .ok (t2 :: bs) : Except PyErr (List Triple)) := by
        simp only [mapExcept, hrt]
        cases mapExcept (remapTriple iog gi istr) rest <;> rfl
      rw [hL, hM]
      have hset : ((h.read rref).asTripList).set i t2 = acc ++ t2 :: rest := by
        rw [hread]
        show (acc ++ t :: rest).set i t2 = acc ++ t2 :: rest
        rw [← hi]
        exact set_append_cons acc t rest t2
      have hrec := ih (i + 1) (acc ++ [t2])
        (h.write rref (.tripList (((h.read rref).asTripList).set i t2)))
        (by rw [Heap.length_write]; exact hr)
        (by simp [hi])
        (by rw [Heap.read_write_eq _ _ _ hr, hset]; simp)
      cases hm : mapExcept (remapTriple iog gi istr) rest with
      | error e2 =>
        cases hl : remapLoop rref iog gi istr rest (i + 1)
            (h.write rref (.tripList (((h.read rref).asTripList).set i t2))) with
        | error e =>
          rw [hl, hm] at hrec
          exact hrec
        | ok h2 =>
          rw [hl, hm] at hrec
          exact hrec.elim
      | ok bs =>
        cases hl : remapLoop rref iog gi istr rest (i + 1)
            (h.write rref (.tripList (((h.read rref).asTripList).set i t2))) with
        | error e =>
          rw [hl, hm] at hrec
          exact hrec.elim
        | ok h2 =>
          rw [hl, hm] at hrec
          obtain ⟨hrd, hln, hfr⟩ := hrec
          refine ⟨by rw [hrd]; simp, by rw [hln, Heap.length_write], ?_⟩
          intro a ha
          rw [hfr a ha, Heap.read_write_ne _ _ _ _ (Ne.symm ha)]

theorem Heap.read_append_eq (h : Heap) (o : PyObj) (a : Nat)
    (ha : a = h.length) : (h ++ [o]).read a = o := by
  subst ha
  unfold Heap.read
  simp

/-- Every address stored in a `ProblemInfoRef` points below the given
heap bound. -/
def prOk (pr : ProblemInfoRef) (h0 : Heap) : Prop :=
  pr.tasks < h0.length ∧ pr.ids < h0.length ∧ pr.names < h0.length ∧
  pr.days < h0.length ∧ pr.people_per_task < h0.length ∧
  pr.women_per_task < h0.length ∧ pr.parents_per_task < h0.length ∧
  pr.n_people < h0.length ∧ pr.n_women < h0.length ∧
  pr.n_parents < h0.length ∧ pr.reject < h0.length ∧ pr.force < h0.length

instance (pr : ProblemInfoRef) (h0 : Heap) : Decidable (prOk pr h0) := by
  unfold prOk
  infer_instance

/-- The two embeddings of `make_group` agree: whenever the reference-level
`make_group_heap` returns a record and a final heap, the value-level
`make_group` run on the realized input returns exactly the realization of
that record in that heap. -/
theorem make_group_heap_realizes (keys : List PyId) (pr : ProblemInfoRef)
    (h0 : Heap) (hpr : prOk pr h0) (qr : ProblemInfoRef) (hf : Heap)
    (hmg : make_group_heap keys pr h0 = .ok (qr, hf)) :
    make_group keys (realize pr h0) = .ok (realize qr hf) := by
  obtain ⟨hT, hI, hN, hD, hP, hW, hE, hNp, hNw, hNpar, hR, hF⟩ := hpr
  unfold make_group_heap at hmg
  simp only [Heap.alloc, List.length_append, List.length_cons,
    List.length_nil, Nat.add_zero, Nat.zero_add] at hmg
  split at hmg
  · cases hmg
  · rename_i st heq
    have hrefs : refsOk (List.length h0) (List.length h0 + 1)
        (List.length h0 + 1 + 1 + 1 + 1) (List.length h0 + 1 + 1 + 1 + 1 + 1)
        (List.length h0 + 1 + 1 + 1 + 1 + 1 + 1)
        (h0 ++ [PyObj.strList (h0.read pr.names).asStrList] ++
          [PyObj.idList (h0.read pr.ids).asIdList] ++
          [PyObj.tripList (h0.read pr.force).asTripList] ++
          [PyObj.tripList (h0.read pr.reject).asTripList] ++
          [PyObj.intList (h0.read pr.n_people).asIntList] ++
          [PyObj.intList (h0.read pr.n_women).asIntList] ++
          [PyObj.intList (h0.read pr.n_parents).asIntList]) := by
      unfold refsOk
      simp [List.length_append]
      omega
    have hrel : relHG (List.length h0) (List.length h0 + 1)
        (List.length h0 + 1 + 1 + 1 + 1) (List.length h0 + 1 + 1 + 1 + 1 + 1)
        (List.length h0 + 1 + 1 + 1 + 1 + 1 + 1)
        ⟨h0 ++ [PyObj.strList (h0.read pr.names).asStrList] ++
          [PyObj.idList (h0.read pr.ids).asIdList] ++
          [PyObj.tripList (h0.read pr.force).asTripList] ++
          [PyObj.tripList (h0.read pr.reject).asTripList] ++
          [PyObj.intList (h0.read pr.n_people).asIntList] ++
          [PyObj.intList (h0.read pr.n_women).asIntList] ++
          [PyObj.intList (h0.read pr.n_parents).asIntList],
          List.range pr.n_p_units, [], 0, 0, 0, "", [], true, pr.n_p_units⟩
        (initGState (realize pr h0)) := by
      unfold relHG initGState
      refine ⟨?_, ?_, ?_, ?_, ?_, rfl, rfl, rfl, rfl, rfl, rfl, rfl, rfl, rfl⟩
      · rw [Heap.read_append _ _ _ (by (try simp [List.length_append]) <;> omega),
          Heap.read_append _ _ _ (by (try simp [List.length_append]) <;> omega),
          Heap.read_append _ _ _ (by (try simp [List.length_append]) <;> omega),
          Heap.read_append _ _ _ (by (try simp [List.length_append]) <;> omega),
          Heap.read_append _ _ _ (by (try simp [List.length_append]) <;> omega),
          Heap.read_append _ _ _ (by (try simp [List.length_append]) <;> omega),
          Heap.read_append_eq _ _ _ (by (try simp [List.length_append]) <;> omega)]
        rfl
      · rw [Heap.read_append _ _ _ (by (try simp [List.length_append]) <;> omega),
          Heap.read_append _ _ _ (by (try simp [List.length_append]) <;> omega),
          Heap.read_append _ _ _ (by (try simp [List.length_append]) <;> omega),
          Heap.read_append _ _ _ (by (try simp [List.length_append]) <;> omega),
          Heap.read_append _ _ _ (by (try simp [List.length_append]) <;> omega),
          Heap.read_append_eq _ _ _ (by (try simp [List.length_append]) <;> omega)]
        rfl
      · rw [Heap.read_append _ _ _ (by (try simp [List.length_append]) <;> omega),
          Heap.read_append _ _ _ (by (try simp [List.length_append]) <;> omega),
          Heap.read_append_eq _ _ _ (by (try simp [List.length_append]) <;> omega)]
        rfl
      · rw [Heap.read_append _ _ _ (by (try simp [List.length_append]) <;> omega),
          Heap.read_append_eq _ _ _ (by (try simp [List.length_append]) <;> omega)]
        rfl
      · rw [Heap.read_append_eq _ _ _ (by (try simp [List.length_append]) <;> omega)]
        rfl
    have hsim := heapLoop_sim (List.length h0) (List.length h0 + 1)
        (List.length h0 + 1 + 1 + 1 + 1) (List.length h0 + 1 + 1 + 1 + 1 + 1)
        (List.length h0 + 1 + 1 + 1 + 1 + 1 + 1) keys
        ⟨h0 ++ [PyObj.strList (h0.read pr.names).asStrList] ++
          [PyObj.idList (h0.read pr.ids).asIdList] ++
          [PyObj.tripList (h0.read pr.force).asTripList] ++
          [PyObj.tripList (h0.read pr.reject).asTripList] ++
          [PyObj.intList (h0.read pr.n_people).asIntList] ++
          [PyObj.intList (h0.read pr.n_women).asIntList] ++
          [PyObj.intList (h0.read pr.n_parents).asIntList],
          List.range pr.n_p_units, [], 0, 0, 0, "", [], true, pr.n_p_units⟩
        (initGState (realize pr h0)) hrefs hrel
    rw [heq] at hsim
    cases hg : groupLoop (initGState (realize pr h0)) keys with
    | error e => rw [hg] at hsim; exact hsim.elim
    | ok g =>
      rw [hg] at hsim
      obtain ⟨hrel2, hlen2⟩ := hsim
      obtain ⟨f1, f2, f3, f4, f5, f6, f7, f8, f9, f10, f11, f12, f13, f14⟩ := hrel2
      obtain ⟨hLlen, hLread⟩ := heapLoop_frame _ _ _ _ _ keys _ st heq
      have hstlen : st.h.length = h0.length + 7 := by
        rw [hLlen]; simp [List.length_append]
      have hreadlow : ∀ a, a < h0.length → st.h.read a = h0.read a := by
        intro a ha
        rw [hLread a (by omega) (by omega) (by omega) (by omega) (by omega)]
        rw [Heap.read_append _ _ _ (by (try simp [List.length_append]) <;> omega),
          Heap.read_append _ _ _ (by (try simp [List.length_append]) <;> omega),
          Heap.read_append _ _ _ (by (try simp [List.length_append]) <;> omega),
          Heap.read_append _ _ _ (by (try simp [List.length_append]) <;> omega),
          Heap.read_append _ _ _ (by (try simp [List.length_append]) <;> omega),
          Heap.read_append _ _ _ (by (try simp [List.length_append]) <;> omega),
          Heap.read_append _ _ _ (by (try simp [List.length_append]) <;> omega)]
      have hreadF : st.h.read (List.length h0 + 1 + 1) =
          PyObj.tripList ((h0.read pr.force).asTripList) := by
        rw [hLread _ (by omega) (by omega) (by omega) (by omega) (by omega)]
        rw [Heap.read_append _ _ _ (by (try simp [List.length_append]) <;> omega),
          Heap.read_append _ _ _ (by (try simp [List.length_append]) <;> omega),
          Heap.read_append _ _ _ (by (try simp [List.length_append]) <;> omega),
          Heap.read_append _ _ _ (by (try simp [List.length_append]) <;> omega),
          Heap.read_append_eq _ _ _ (by (try simp [List.length_append]) <;> omega)]
      have hreadR : st.h.read (List.length h0 + 1 + 1 + 1) =
          PyObj.tripList ((h0.read pr.reject).asTripList) := by
        rw [hLread _ (by omega) (by omega) (by omega) (by omega) (by omega)]
        rw [Heap.read_append _ _ _ (by (try simp [List.length_append]) <;> omega),
          Heap.read_append _ _ _ (by (try simp [List.length_append]) <;> omega),
          Heap.read_append _ _ _ (by (try simp [List.length_append]) <;> omega),
          Heap.read_append_eq _ _ _ (by (try simp [List.length_append]) <;> omega)]
      have hforceTs : (st.h.read pr.force).asTripList = (realize pr h0).force := by
        rw [hreadlow _ hF]; rfl
      simp only [f6, f7, f8, f9, f10, f11, f12, f14, hforceTs] at hmg
      split at hmg
      · cases hmg
      · rename_i h8 heq2
        have hsim2 := remapLoop_sim (List.length h0 + 1 + 1) g.indexes_of_group
          (pr.n_p_units - List.length keys) g.index_struct
          ((realize pr h0).force) 0 [] st.h (by omega) rfl
          (by rw [hreadF]; rfl)
        rw [heq2] at hsim2
        cases hmf : mapExcept (remapTriple g.indexes_of_group
            (pr.n_p_units - List.length keys) g.index_struct)
            (realize pr h0).force with
        | error e => rw [hmf] at hsim2; exact hsim2.elim
        | ok force0 =>
        rw [hmf] at hsim2
        obtain ⟨hrdF, hlnF, hfrF⟩ := hsim2
        split at hmg
        · cases hmg
        · rename_i h9 heq3
          have hrejTs : (h8.read pr.reject).asTripList = (realize pr h0).reject := by
            rw [hfrF _ (by omega), hreadlow _ hR]; rfl
          rw [hrejTs] at heq3
          have hsim3 := remapLoop_sim (List.length h0 + 1 + 1 + 1) g.indexes_of_group
            (pr.n_p_units - List.length keys) g.index_struct
            ((realize pr h0).reject) 0 [] h8 (by omega) rfl
            (by rw [hfrF _ (by omega), hreadR]; rfl)
          rw [heq3] at hsim3
          cases hmr : mapExcept (remapTriple g.indexes_of_group
              (pr.n_p_units - List.length keys) g.index_struct)
              (realize pr h0).reject with
          | error e => rw [hmr] at hsim3; exact hsim3.elim
          | ok reject0 =>
          rw [hmr] at hsim3
          obtain ⟨hrdR, hlnR, hfrR⟩ := hsim3
          have h9len : List.length h9 = List.length h0 + 7 := by
            rw [hlnR, hlnF, hstlen]
          have hread9F : (h9.read (List.length h0 + 1 + 1)).asTripList = force0 := by
            rw [hfrR _ (by omega), hrdF]; rfl
          simp only [hread9F] at hmg
          have hread9R : ((h9 ++ [PyObj.tripList (pySetList force0)]).read
              (List.length h0 + 1 + 1 + 1)).asTripList = reject0 := by
            rw [Heap.read_append _ _ _ (by omega), hrdR]; rfl
          simp only [hread9R] at hmg
          have hrdA : (h9 ++ [PyObj.tripList (pySetList force0)] ++
              [PyObj.tripList (pySetList reject0)]).read (List.length h9) =
              PyObj.tripList (pySetList force0) := by
            rw [Heap.read_append _ _ _ (by (try simp [List.length_append]) <;> omega)]
            exact Heap.read_append_eq _ _ _ rfl
          have hrdB : (h9 ++ [PyObj.tripList (pySetList force0)] ++
              [PyObj.tripList (pySetList reject0)]).read (List.length h9 + 1) =
              PyObj.tripList (pySetList reject0) :=
            Heap.read_append_eq _ _ _ (by simp [List.length_append])
          simp only [hrdA, hrdB, PyObj.asTripList] at hmg
          have h9low : ∀ a, a ≠ List.length h0 + 1 + 1 →
              a ≠ List.length h0 + 1 + 1 + 1 → h9.read a = st.h.read a :=
            fun a ha1 ha2 => by rw [hfrR _ ha2, hfrF _ ha1]
          set A := PyObj.tripList (pySetList force0) with hA
          set B := PyObj.tripList (pySetList reject0) with hB
          set C := PyObj.tripList
            (List.filter (fun t => decide (t ∉ pySetList reject0))
              (pySetList force0)) with hC
          have hNp : ((h9 ++ [A] ++ [B] ++ [C]).read
              (List.length h0 + 1 + 1 + 1 + 1)).asIntList = g.n_people := by
            rw [Heap.read_append _ _ _ (by (try simp [List.length_append]) <;> omega),
              Heap.read_append _ _ _ (by (try simp [List.length_append]) <;> omega),
              Heap.read_append _ _ _ (by (try simp [List.length_append]) <;> omega),
              h9low _ (by omega) (by omega), f3]
          simp only [hNp] at hmg
          set D := PyObj.intList (g.n_people ++ [g.people]) with hD2
          have hNw : ((h9 ++ [A] ++ [B] ++ [C] ++ [D]).read
              (List.length h0 + 1 + 1 + 1 + 1 + 1)).asIntList = g.n_women := by
            rw [Heap.read_append _ _ _ (by (try simp [List.length_append]) <;> omega),
              Heap.read_append _ _ _ (by (try simp [List.length_append]) <;> omega),
              Heap.read_append _ _ _ (by (try simp [List.length_append]) <;> omega),
              Heap.read_append _ _ _ (by (try simp [List.length_append]) <;> omega),
              h9low _ (by omega) (by omega), f4]
          simp only [hNw] at hmg
          set E := PyObj.intList (g.n_women ++ [g.women]) with hE2
          have hNpar : ((h9 ++ [A] ++ [B] ++ [C] ++ [D] ++ [E]).read
              (List.length h0 + 1 + 1 + 1 + 1 + 1 + 1)).asIntList = g.n_parents := by
            rw [Heap.read_append _ _ _ (by (try simp [List.length_append]) <;> omega),
              Heap.read_append _ _ _ (by (try simp [List.length_append]) <;> omega),
              Heap.read_append _ _ _ (by (try simp [List.length_append]) <;> omega),
              Heap.read_append _ _ _ (by (try simp [List.length_append]) <;> omega),
              Heap.read_append _ _ _ (by (try simp [List.length_append]) <;> omega),
              h9low _ (by omega) (by omega), f5]
          simp only [hNpar] at hmg
          set F := PyObj.intList (g.n_parents ++ [g.parents]) with hF2
          have hIds : ((h9 ++ [A] ++ [B] ++ [C] ++ [D] ++ [E] ++ [F]).read
              (List.length h0 + 1)).asIdList = g.ids := by
            rw [Heap.read_append _ _ _ (by (try simp [List.length_append]) <;> omega),
              Heap.read_append _ _ _ (by (try simp [List.length_append]) <;> omega),
              Heap.read_append _ _ _ (by (try simp [List.length_append]) <;> omega),
              Heap.read_append _ _ _ (by (try simp [List.length_append]) <;> omega),
              Heap.read_append _ _ _ (by (try simp [List.length_append]) <;> omega),
              Heap.read_append _ _ _ (by (try simp [List.length_append]) <;> omega),
              h9low _ (by omega) (by omega), f2]
          simp only [hIds] at hmg
          set G := PyObj.idList (g.ids ++ [pyList g.new_ids]) with hG2
          have hNames : (((h9 ++ [A] ++ [B] ++ [C] ++ [D] ++ [E] ++ [F]).write
              (List.length h0 + 1) G).read (List.length h0)).asStrList = g.names := by
            rw [Heap.read_write_ne _ _ _ _ (by omega),
              Heap.read_append _ _ _ (by (try simp [List.length_append]) <;> omega),
              Heap.read_append _ _ _ (by (try simp [List.length_append]) <;> omega),
              Heap.read_append _ _ _ (by (try simp [List.length_append]) <;> omega),
              Heap.read_append _ _ _ (by (try simp [List.length_append]) <;> omega),
              Heap.read_append _ _ _ (by (try simp [List.length_append]) <;> omega),
              Heap.read_append _ _ _ (by (try simp [List.length_append]) <;> omega),
              h9low _ (by omega) (by omega), f1]
          simp only [hNames] at hmg
          set H := PyObj.strList (g.names ++ [g.new_names]) with hH2
          have hlow17 : ∀ a, a < List.length h0 →
              (((h9 ++ [A] ++ [B] ++ [C] ++ [D] ++ [E] ++ [F]).write
                (List.length h0 + 1) G).write (List.length h0) H).read a =
              h0.read a := by
            intro a ha
            rw [Heap.read_write_ne _ _ _ _ (by omega),
              Heap.read_write_ne _ _ _ _ (by omega),
              Heap.read_append _ _ _ (by (try simp [List.length_append]) <;> omega),
              Heap.read_append _ _ _ (by (try simp [List.length_append]) <;> omega),
              Heap.read_append _ _ _ (by (try simp [List.length_append]) <;> omega),
              Heap.read_append _ _ _ (by (try simp [List.length_append]) <;> omega),
              Heap.read_append _ _ _ (by (try simp [List.length_append]) <;> omega),
              Heap.read_append _ _ _ (by (try simp [List.length_append]) <;> omega),
              h9low _ (by omega) (by omega), hreadlow _ ha]
          simp only [hlow17 _ hD] at hmg
          set H17 := ((h9 ++ [A] ++ [B] ++ [C] ++ [D] ++ [E] ++ [F]).write
            (List.length h0 + 1) G).write (List.length h0) H with hH17
          have hlen17 : List.length H17 = List.length h0 + 13 := by
            rw [hH17]
            simp [Heap.length_write, List.length_append, h9len]
          set DD := PyObj.strList (h0.read pr.days).asStrList with hDD
          have hlow18 : ∀ a, a < List.length h0 →
              (H17 ++ [DD]).read a = h0.read a := fun a ha => by
            rw [Heap.read_append _ _ _ (by omega), hlow17 _ ha]
          simp only [hlow18 _ hP] at hmg
          set PP := PyObj.intMat (h0.read pr.people_per_task).asIntMat with hPP
          have hlow19 : ∀ a, a < List.length h0 →
              (H17 ++ [DD] ++ [PP]).read a = h0.read a := fun a ha => by
            rw [Heap.read_append _ _ _
              (by (try simp [List.length_append]) <;> omega), hlow18 _ ha]
          simp only [hlow19 _ hW] at hmg
          set WW := PyObj.intMat (h0.read pr.women_per_task).asIntMat with hWW
          have hlow20 : ∀ a, a < List.length h0 →
              (H17 ++ [DD] ++ [PP] ++ [WW]).read a = h0.read a := fun a ha => by
            rw [Heap.read_append _ _ _
              (by (try simp [List.length_append]) <;> omega), hlow19 _ ha]
          simp only [hlow20 _ hE] at hmg
          set EE := PyObj.intMat (h0.read pr.parents_per_task).asIntMat with hEE
          injection hmg with hp
          injection hp with hqr hhf
          subst hqr
          subst hhf
          simp only [realize] at hg hmf hmr ⊢
          simp only [make_group, hg, hmf, hmr]
          simp only [Except.ok.injEq, ProblemInfo.mk.injEq]
          have hlow21 : ∀ a, a < List.length h0 →
              (H17 ++ [DD] ++ [PP] ++ [WW] ++ [EE]).read a = h0.read a :=
            fun a ha => by
              rw [Heap.read_append _ _ _
                (by (try simp [List.length_append]) <;> omega), hlow20 _ ha]
          refine ⟨trivial, trivial, trivial, ?_, ?_, ?_, ?_, ?_, ?_, ?_, ?_, ?_,
            ?_, ?_, ?_⟩
          · rw [hlow21 _ hT]
          · rw [Heap.read_append _ _ _ (by (try simp [List.length_append]) <;> omega),
              Heap.read_append _ _ _ (by (try simp [List.length_append]) <;> omega),
              Heap.read_append _ _ _ (by (try simp [List.length_append]) <;> omega),
              Heap.read_append _ _ _ (by omega), hH17,
              Heap.read_write_ne _ _ _ _ (by omega),
              Heap.read_write_eq _ _ _ (by (try simp [List.length_append]) <;> omega),
              hG2]
            rfl
          · rw [Heap.read_append _ _ _ (by (try simp [List.length_append]) <;> omega),
              Heap.read_append _ _ _ (by (try simp [List.length_append]) <;> omega),
              Heap.read_append _ _ _ (by (try simp [List.length_append]) <;> omega),
              Heap.read_append _ _ _ (by omega), hH17,
              Heap.read_write_eq _ _ _ (by (try simp [Heap.length_write, List.length_append]) <;> omega),
              hH2]
            rfl
          · rw [Heap.read_append _ _ _ (by (try simp [List.length_append]) <;> omega),
              Heap.read_append _ _ _ (by (try simp [List.length_append]) <;> omega),
              Heap.read_append _ _ _ (by (try simp [List.length_append]) <;> omega),
              Heap.read_append_eq _ _ _ rfl, hDD]
            rfl
          · rw [Heap.read_append _ _ _ (by (try simp [List.length_append]) <;> omega),
              Heap.read_append _ _ _ (by (try simp [List.length_append]) <;> omega),
              Heap.read_append_eq _ _ _ (by simp [List.length_append]), hPP]
            rfl
          · rw [Heap.read_append _ _ _ (by (try simp [List.length_append]) <;> omega),
              Heap.read_append_eq _ _ _ (by simp [List.length_append]), hWW]
            rfl
          · rw [Heap.read_append_eq _ _ _ (by simp [List.length_append]), hEE]
            rfl
          · rw [Heap.read_append _ _ _ (by (try simp [List.length_append]) <;> omega),
              Heap.read_append _ _ _ (by (try simp [List.length_append]) <;> omega),
              Heap.read_append _ _ _ (by (try simp [List.length_append]) <;> omega),
              Heap.read_append _ _ _ (by omega), hH17,
              Heap.read_write_ne _ _ _ _ (by omega),
              Heap.read_write_ne _ _ _ _ (by omega),
              Heap.read_append _ _ _ (by (try simp [List.length_append]) <;> omega),
              Heap.read_append _ _ _ (by (try simp [List.length_append]) <;> omega),
              Heap.read_append_eq _ _ _ (by (try simp [List.length_append]) <;> omega),
              hD2]
            rfl
          · rw [Heap.read_append _ _ _ (by (try simp [List.length_append]) <;> omega),
              Heap.read_append _ _ _ (by (try simp [List.length_append]) <;> omega),
              Heap.read_append _ _ _ (by (try simp [List.length_append]) <;> omega),
              Heap.read_append _ _ _ (by omega), hH17,
              Heap.read_write_ne _ _ _ _ (by omega),
              Heap.read_write_ne _ _ _ _ (by omega),
              Heap.read_append _ _ _ (by (try simp [List.length_append]) <;> omega),
              Heap.read_append_eq _ _ _ (by (try simp [List.length_append]) <;> omega),
              hE2]
            rfl
          · rw [Heap.read_append _ _ _ (by (try simp [List.length_append]) <;> omega),
              Heap.read_append _ _ _ (by (try simp [List.length_append]) <;> omega),
              Heap.read_append _ _ _ (by (try simp [List.length_append]) <;> omega),
              Heap.read_append _ _ _ (by omega), hH17,
              Heap.read_write_ne _ _ _ _ (by omega),
              Heap.read_write_ne _ _ _ _ (by omega),
              Heap.read_append_eq _ _ _ (by (try simp [List.length_append]) <;> omega),
              hF2]
            rfl
          · rw [Heap.read_append _ _ _ (by (try simp [List.length_append]) <;> omega),
              Heap.read_append _ _ _ (by (try simp [List.length_append]) <;> omega),
              Heap.read_append _ _ _ (by (try simp [List.length_append]) <;> omega),
              Heap.read_append _ _ _ (by omega), hH17,
              Heap.read_write_ne _ _ _ _ (by omega),
              Heap.read_write_ne _ _ _ _ (by omega),
              Heap.read_append _ _ _ (by (try simp [List.length_append]) <;> omega),
              Heap.read_append _ _ _ (by (try simp [List.length_append]) <;> omega),
              Heap.read_append _ _ _ (by (try simp [List.length_append]) <;> omega),
              Heap.read_append _ _ _ (by (try simp [List.length_append]) <;> omega),
              Heap.read_append_eq _ _ _ (by (try simp [List.length_append]) <;> omega),
              hB]
            rfl
          · rw [Heap.read_append _ _ _ (by (try simp [List.length_append]) <;> omega),
              Heap.read_append _ _ _ (by (try simp [List.length_append]) <;> omega),
              Heap.read_append _ _ _ (by (try simp [List.length_append]) <;> omega),
              Heap.read_append _ _ _ (by omega), hH17,
              Heap.read_write_ne _ _ _ _ (by omega),
              Heap.read_write_ne _ _ _ _ (by omega),
              Heap.read_append _ _ _ (by (try simp [List.length_append]) <;> omega),
              Heap.read_append _ _ _ (by (try simp [List.length_append]) <;> omega),
              Heap.read_append _ _ _ (by (try simp [List.length_append]) <;> omega),
              Heap.read_append_eq _ _ _ (by (try simp [List.length_append]) <;> omega),
              hC]
            rfl

/-- A concrete single-unit heap for instantiating the agreement theorem. -/
def exHeap : Heap :=
  [.strList ["T"], .idList [.str "a"], .strList ["A"], .strList ["d"],
   .intMat [[1]], .intMat [[0]], .intMat [[0]],
   .intList [1], .intList [0], .intList [0], .tripList [], .tripList []]

/-- The input record addressing `exHeap`. -/
def exRef : ProblemInfoRef := ⟨1, 1, 1, 0, 1, 2, 3, 4, 5, 6, 7, 8, 9, 10, 11⟩

/-- The record returned when grouping `{a}` over `exHeap`. -/
def exOutRef : ProblemInfoRef :=
  ⟨1, 1, 1, 0, 13, 12, 25, 26, 27, 28, 22, 23, 24, 20, 21⟩

/-- The heap after that call. -/
def exOutHeap : Heap :=
  [.strList ["T"], .idList [.str "a"], .strList ["A"], .strList ["d"],
   .intMat [[1]], .intMat [[0]], .intMat [[0]],
   .intList [1], .intList [0], .intList [0], .tripList [], .tripList [],
   .strList ["A"], .idList [pyList [.str "a"]], .tripList [], .tripList [],
   .intList [], .intList [], .intList [], .tripList [], .tripList [],
   .tripList [], .intList [1], .intList [0], .intList [0], .strList ["d"],
   .intMat [[1]], .intMat [[0]], .intMat [[0]]]

/-- The agreement theorem holds at a concrete instance: the heap-level run
succeeds and the value-level run returns its realization. -/
theorem make_group_heap_realizes_example :
    prOk exRef exHeap ∧
    make_group_heap [PyId.str "a"] exRef exHeap = .ok (exOutRef, exOutHeap) ∧
    make_group [PyId.str "a"] (realize exRef exHeap) =
      .ok (realize exOutRef exOutHeap) :=
  ⟨by decide, by decide,
   make_group_heap_realizes [PyId.str "a"] exRef exHeap (by decide)
     exOutRef exOutHeap (by decide)⟩
